import Mathlib

/-!
Verification of the duplicacy-util orchestration core (`backup-ops.go` and the
configuration loader) against its natural-language specification.

The Go code is shallowly embedded: strings are lists of characters
(`Str := List Char`), the external process executor is an oracle mapping a
target index to either a list of output lines or an error, wall-clock
durations are an oracle mapping a target index to a string, and the global
result tables become explicit accumulator arguments threaded through the
per-operation loops.

The two regular expressions used by the backup output classifier both have
the shape dot-star, literal colon-space, then captured tokens `\S+`
separated by fixed literals that each begin with a space character.  Because
a `\S+` token can never contain a space, backtracking a token below its
maximal non-space run immediately fails on the following space-initial
literal, so each token is exactly the maximal non-space run at its position
(`tokTail` below).  The leading greedy dot-star together with Go's
leftmost-first match order means the engine tries colon-space split points
from the rightmost one leftwards (`scanColonSp` below).  Lines delivered by
the executor's line sink never contain a newline character, so the
dot-cannot-match-newline restriction never cuts the scan short and this
model coincides with the engine on every input it is applied to.
-/

/-- Characters of a Go string. -/
abbrev Str : Type := List Char

/-- Errors returned by collaborators; only their identity matters. -/
abbrev Err : Type := String

/-- Go regexp character class `\s`, which is exactly `[\t\n\f\r ]`. -/
def goSpace (c : Char) : Bool :=
  c = ' ' || c = '\t' || c = '\n' || c = '\x0c' || c = '\r'

/-- A character matched by `\S` in a Go regular expression. -/
def nonsp (c : Char) : Bool := !goSpace c

/-- Boolean prefix test on character lists, as `strings.HasPrefix`. -/
def hasPrefixL : Str → Str → Bool
  | [], _ => true
  | _ :: _, [] => false
  | p :: ps, c :: cs => p == c && hasPrefixL ps cs

/-- Boolean suffix test on character lists, as `strings.HasSuffix`. -/
def hasSuffixL (p : Str) (cs : Str) : Bool :=
  hasPrefixL p.reverse cs.reverse

/-- Remove a literal pattern from the front of a list, if present. -/
def dropLit : Str → Str → Option Str
  | [], cs => some cs
  | _ :: _, [] => none
  | p :: ps, c :: cs => if p = c then dropLit ps cs else none

/-- One `(\S+)` capture followed by a required literal separator: the token is
the maximal non-space run (see the header comment for why no backtracking
below that run can succeed), and the separator must follow immediately.
Returns the token and the remainder after the separator. -/
def tokTail (sep : Str) (cs : Str) : Option (Str × Str) :=
  let t := cs.takeWhile nonsp
  if t = [] then none
  else
    match dropLit sep (cs.dropWhile nonsp) with
    | some r => some (t, r)
    | none => none

/-- Backtracking search for the split point of a pattern beginning with a
greedy `.*` followed by the literal `: `.  Go's leftmost-first semantics with
a greedy leading dot-star tries the rightmost colon-space occurrence first,
which the recursion models by preferring the result from the tail. -/
def scanColonSp {α : Type} (f : Str → Option α) : Str → Option α
  | [] => none
  | c :: rest =>
    match scanColonSp f rest with
    | some r => some r
    | none =>
      if c = ':' then
        match rest with
        | sp :: r2 => if sp = ' ' then f r2 else none
        | [] => none
      else none

/-- Tail of the backup `Files:` pattern after the colon-space split:
`(\S+) total, (\S+) bytes; (\S+) new, (\S+) bytes`
(from `regexp.MustCompile` in `backupLogger`, `backup-ops.go:123`). -/
def filesTail (cs : Str) : Option (Str × Str × Str × Str) :=
  match tokTail (" total, ".data) cs with
  | none => none
  | some (t1, r1) =>
    match tokTail (" bytes; ".data) r1 with
    | none => none
    | some (t2, r2) =>
      match tokTail (" new, ".data) r2 with
      | none => none
      | some (t3, r3) =>
        match tokTail (" bytes".data) r3 with
        | none => none
        | some (t4, _) => some (t1, t2, t3, t4)

/-- Tail of the backup `All chunks:` pattern after the colon-space split:
`(\S+) total, (\S+) bytes; (\S+) new, (\S+) bytes, (\S+) bytes uploaded`
(from `regexp.MustCompile` in `backupLogger`, `backup-ops.go:138`). -/
def chunksTail (cs : Str) : Option (Str × Str × Str × Str × Str) :=
  match tokTail (" total, ".data) cs with
  | none => none
  | some (t1, r1) =>
    match tokTail (" bytes; ".data) r1 with
    | none => none
    | some (t2, r2) =>
      match tokTail (" new, ".data) r2 with
      | none => none
      | some (t3, r3) =>
        match tokTail (" bytes, ".data) r3 with
        | none => none
        | some (t4, r4) =>
          match tokTail (" bytes uploaded".data) r4 with
          | none => none
          | some (t5, _) => some (t1, t2, t3, t4, t5)

/-- Result of `FindStringSubmatch` for the `Files:` regular expression. -/
def filesMatchL (cs : Str) : Option (Str × Str × Str × Str) :=
  scanColonSp filesTail cs

/-- Result of `FindStringSubmatch` for the `All chunks:` regular expression. -/
def chunksMatchL (cs : Str) : Option (Str × Str × Str × Str × Str) :=
  scanColonSp chunksTail cs

/-- Tail of the copy pattern after its leading literal:
`(\S+) total chunks, (\S+) chunks copied, (\S+) skipped`
(from `regexp.MustCompile` in `copyLogger`, `backup-ops.go:236`). -/
def copyTail (cs : Str) : Option (Str × Str × Str) :=
  match tokTail (" total chunks, ".data) cs with
  | none => none
  | some (t1, r1) =>
    match tokTail (" chunks copied, ".data) r1 with
    | none => none
    | some (t2, r2) =>
      match tokTail (" skipped".data) r2 with
      | none => none
      | some (t3, _) => some (t1, t2, t3)

/-- Leftmost-first search for the copy pattern, which starts with the literal
`Copy complete, ` rather than a dot-star, so occurrences are tried from the
left. -/
def copyScanL : Str → Option (Str × Str × Str)
  | [] => none
  | c :: rest =>
    match dropLit ("Copy complete, ".data) (c :: rest) with
    | some r =>
      (match copyTail r with
       | some x => some x
       | none => copyScanL rest)
    | none => copyScanL rest

/-- The `backupRevision` record of `backup-ops.go:28`; every field is a Go
string whose zero value is the empty string. -/
structure backupRevision where
  storage : Str := []
  chunkTotalCount : Str := []
  chunkTotalSize : Str := []
  filesTotalCount : Str := []
  filesTotalSize : Str := []
  filesNewCount : Str := []
  filesNewSize : Str := []
  chunkNewCount : Str := []
  chunkNewSize : Str := []
  chunkNewUploaded : Str := []
  duration : Str := []
deriving DecidableEq, Repr

/-- The `copyRevision` record of `backup-ops.go:42`. -/
structure copyRevision where
  storageFrom : Str := []
  storageTo : Str := []
  chunkTotalCount : Str := []
  chunkCopyCount : Str := []
  chunkSkipCount : Str := []
  duration : Str := []
deriving DecidableEq, Repr

/-- The zero `backupRevision`, as created by `var backupEntry backupRevision`. -/
def emptyBackupRevision : backupRevision := {}

/-- The zero `copyRevision`, as created by `var copyEntry copyRevision`. -/
def emptyCopyRevision : copyRevision := {}

/-- The `Files:` branch of `backupLogger` (`backup-ops.go:118-130`): on a
successful submatch the four file fields are overwritten with the captures;
otherwise the record is untouched. -/
def applyFiles (r : backupRevision) (line : Str) : backupRevision :=
  match filesMatchL line with
  | some (a, b, c, d) =>
    { r with filesTotalCount := a, filesTotalSize := b,
             filesNewCount := c, filesNewSize := d }
  | none => r

/-- The `All chunks:` branch of `backupLogger` (`backup-ops.go:133-146`). -/
def applyChunks (r : backupRevision) (line : Str) : backupRevision :=
  match chunksMatchL line with
  | some (a, b, c, d, e) =>
    { r with chunkTotalCount := a, chunkTotalSize := b,
             chunkNewCount := c, chunkNewSize := d, chunkNewUploaded := e }
  | none => r

/-- Effect of one line on the in-progress backup record: the `backupLogger`
closure of `backup-ops.go:115`.  The verbatim logging side effects are
dropped; only the field mutations of `backupEntry` are modelled.  The Go
guard `len(elements) >= 4` (resp. `>= 6`) is equivalent to the submatch
having succeeded, since `FindStringSubmatch` returns either nil or the full
match plus all capture groups; the credential-prompt branch only logs a
warning and leaves every field alone. -/
def backupLoggerStep (r : backupRevision) (line : Str) : backupRevision :=
  if hasPrefixL ("Files:".data) line then applyFiles r line
  else if hasPrefixL ("All chunks:".data) line then applyChunks r line
  else if hasPrefixL ("Enter storage password:".data) line
          || hasSuffixL ("Authorization failure".data) line then
    r
  else r

/-- The `Copy complete, ` branch of `copyLogger` (`backup-ops.go:231-242`). -/
def applyCopyComplete (r : copyRevision) (line : Str) : copyRevision :=
  match copyScanL line with
  | some (a, b, c) =>
    { r with chunkTotalCount := a, chunkCopyCount := b, chunkSkipCount := c }
  | none => r

/-- Effect of one line on the in-progress copy record: the `copyLogger`
closure of `backup-ops.go:228`. -/
def copyLoggerStep (r : copyRevision) (line : Str) : copyRevision :=
  if hasPrefixL ("Copy complete, ".data) line then applyCopyComplete r line
  else r

/-- One entry of `configurationFile.BackupInfo` (config loader, `part_000:39`). -/
structure BackupInfoT where
  name : Str
  threads : Str
  vss : Bool
  vssTimeout : Str
  quote : Str
deriving DecidableEq, Repr

/-- One entry of `configurationFile.CopyInfo` (config loader, `part_000:46`). -/
structure CopyInfoT where
  from_ : Str
  to_ : Str
  threads : Str
  quote : Str
deriving DecidableEq, Repr

/-- One entry of `configurationFile.PruneInfo` (config loader, `part_000:52`). -/
structure PruneInfoT where
  storage : Str
  keep : Str
  threads : Str
  all : Bool
  quote : Str
deriving DecidableEq, Repr

/-- One entry of `configurationFile.CheckInfo` (config loader, `part_000:59`). -/
structure CheckInfoT where
  storage : Str
  all : Bool
  quote : Str
deriving DecidableEq, Repr

/-- Decimal digits of a natural number, fuel-structured so that it reduces in
the kernel; models `strconv.Itoa` for the test-argument suffix. -/
def natCharsAux : Nat → Nat → Str
  | 0, _ => []
  | fuel + 1, n =>
    if n < 10 then [Nat.digitChar n]
    else natCharsAux fuel (n / 10) ++ [Nat.digitChar (n % 10)]

/-- Decimal representation of a natural number as characters. -/
def natChars (n : Nat) : Str := natCharsAux (n + 1) n

/-- Go `strings.Split(s, " ")`: split on every single space; the empty string
splits to one empty field. -/
def splitSp : Str → List Str
  | [] => [[]]
  | c :: rest =>
    if c = ' ' then [] :: splitSp rest
    else
      match splitSp rest with
      | [] => [[c]]
      | w :: ws => (c :: w) :: ws

/-- Go `strings.Join(l, " ")`. -/
def joinSp : List Str → Str
  | [] => []
  | [w] => w
  | w :: ws => w ++ ' ' :: joinSp ws

/-- The keep-specification rewrite performed by `loadConfig`
(`part_000:163-171`): split the stored keep string on spaces, put `-keep `
in front of every token, and join the tokens back with spaces. -/
def expandKeep (k : Str) : Str :=
  joinSp ((splitSp k).map (fun e => "-keep ".data ++ e))

/-- The unit-test adjustment at the top of each operation loop: when the
first test argument is `testbackup`, the second is suffixed.  A one-element
`testbackup` list would panic in Go on the out-of-range index; that case is
left at the identity here and is never exercised by the claims. -/
def testbackupAdjust (testArgs : List Str) (suffix : Str) : List Str :=
  match testArgs with
  | a :: b :: rest =>
    if a = "testbackup".data then a :: (b ++ suffix) :: rest else testArgs
  | _ => testArgs

/-- Argument list built for one backup target by `performDuplicacyBackup`
(`backup-ops.go:166-194`): the adjusted test arguments, the verb and storage
pair, `-stats`, the thread count, the optional vss flags, and finally — when
the quote string is non-empty — one extra element equal to a single space
followed by the quote string (the source appends `" " + backupInfo.Quote`). -/
def buildBackupArgs (testArgs : List Str) (bi : BackupInfoT) (i : Nat) : List Str :=
  testbackupAdjust testArgs ("_backup".data ++ natChars (i + 1))
    ++ ["backup".data, "-storage".data, bi.name, "-stats".data]
    ++ ["-threads".data, bi.threads]
    ++ (if bi.vss then
          "-vss".data ::
            (if bi.vssTimeout ≠ [] then ["-vss-timeout".data, bi.vssTimeout] else [])
        else [])
    ++ (if bi.quote ≠ [] then [' ' :: bi.quote] else [])

/-- Argument list built for one copy target by `performDuplicacyCopy`
(`backup-ops.go:254-270`). -/
def buildCopyArgs (testArgs : List Str) (ci : CopyInfoT) (i : Nat) : List Str :=
  testbackupAdjust testArgs ("_copy".data ++ natChars (i + 1))
    ++ ["copy".data, "-from".data, ci.from_, "-to".data, ci.to_]
    ++ ["-threads".data, ci.threads]
    ++ (if ci.quote ≠ [] then [' ' :: ci.quote] else [])

/-- Argument list built for one prune target by `performDuplicacyPrune`
(`backup-ops.go:310-333`).  Note that line 317 of the source starts over
from `testArgs` (not from the adjusted copy), so the test-argument
adjustment made just above it is dead; the stored keep string is split on
spaces into discrete arguments right after the storage pair. -/
def buildPruneArgs (testArgs : List Str) (pi : PruneInfoT) : List Str :=
  testArgs
    ++ ["prune".data, "-storage".data, pi.storage]
    ++ splitSp pi.keep
    ++ ["-threads".data, pi.threads]
    ++ (if pi.all then ["-all".data] else [])
    ++ (if pi.quote ≠ [] then [' ' :: pi.quote] else [])

/-- Argument list built for one check target by `performDuplicacyCheck`
(`backup-ops.go:361-380`). -/
def buildCheckArgs (testArgs : List Str) (ci : CheckInfoT) (i : Nat) : List Str :=
  testbackupAdjust testArgs ("_check".data ++ natChars (i + 1))
    ++ ["check".data, "-storage".data, ci.storage]
    ++ (if ci.all then ["-all".data] else [])
    ++ (if ci.quote ≠ [] then [' ' :: ci.quote] else [])

/-- Outcome of one external invocation as seen through the `executor`
collaborator: either the ordered list of output lines fed to the line sink,
or an error. -/
inductive ExecOutcome where
  | ok (lines : List Str)
  | fail (e : Err)
deriving DecidableEq, Repr

/-- Whether an invocation outcome is a success. -/
def ExecOutcome.isOk : ExecOutcome → Bool
  | .ok _ => true
  | .fail _ => false

/-- The two assignments made after a successful backup invocation
(`backup-ops.go:216-217`): the storage name and the measured duration are
written into the in-progress record before it is appended. -/
def finishEntry (bi : BackupInfoT) (d : Str) (e : backupRevision) : backupRevision :=
  { e with storage := bi.name, duration := d }

/-- The per-target loop of `performDuplicacyBackup` (`backup-ops.go:161-219`),
with the executor and the measured durations as oracles indexed by the
target position.  The in-progress `backupEntry` record is declared once,
before the loop, in the source; it is therefore threaded through the
recursion unreset, exactly as in Go.  On the first executor failure the
error is returned and the remaining targets are not visited; on success the
storage name and duration are written into the record and a snapshot of it
is appended to the table. -/
def performDuplicacyBackupAux (exec : Nat → ExecOutcome) (dur : Nat → Str) :
    List BackupInfoT → Nat → backupRevision → List backupRevision →
    List backupRevision × Option Err
  | [], _, _, table => (table, none)
  | bi :: rest, i, entry, table =>
    match exec i with
    | ExecOutcome.fail e => (table, some e)
    | ExecOutcome.ok lines =>
      let e2 := finishEntry bi (dur i) (lines.foldl backupLoggerStep entry)
      performDuplicacyBackupAux exec dur rest (i + 1) e2 (table ++ [e2])

/-- `performDuplicacyBackup` (`backup-ops.go:111`): runs the loop from the
first target with a zero record and an empty table, returning the final
backup result table and the error, if any. -/
def performDuplicacyBackupM (cfg : List BackupInfoT) (exec : Nat → ExecOutcome)
    (dur : Nat → Str) : List backupRevision × Option Err :=
  performDuplicacyBackupAux exec dur cfg 0 emptyBackupRevision []

/-- The assignments made after a successful copy invocation
(`backup-ops.go:292-294`). -/
def finishCopyEntry (ci : CopyInfoT) (d : Str) (e : copyRevision) : copyRevision :=
  { e with storageFrom := ci.from_, storageTo := ci.to_, duration := d }

/-- The per-target loop of `performDuplicacyCopy` (`backup-ops.go:249-296`),
mirroring the backup loop with the copy record and table. -/
def performDuplicacyCopyAux (exec : Nat → ExecOutcome) (dur : Nat → Str) :
    List CopyInfoT → Nat → copyRevision → List copyRevision →
    List copyRevision × Option Err
  | [], _, _, table => (table, none)
  | ci :: rest, i, entry, table =>
    match exec i with
    | ExecOutcome.fail e => (table, some e)
    | ExecOutcome.ok lines =>
      let e2 := finishCopyEntry ci (dur i) (lines.foldl copyLoggerStep entry)
      performDuplicacyCopyAux exec dur rest (i + 1) e2 (table ++ [e2])

/-- `performDuplicacyCopy` (`backup-ops.go:224`). -/
def performDuplicacyCopyM (cfg : List CopyInfoT) (exec : Nat → ExecOutcome)
    (dur : Nat → Str) : List copyRevision × Option Err :=
  performDuplicacyCopyAux exec dur cfg 0 emptyCopyRevision []

/-- The per-target loop of `performDuplicacyPrune` (`backup-ops.go:306-347`):
prune extracts no structured metrics, so only success or the first error is
observable. -/
def performDuplicacyPruneM : List PruneInfoT → (Nat → Option Err) → Nat → Option Err
  | [], _, _ => none
  | _ :: rest, exec, i =>
    match exec i with
    | some e => some e
    | none => performDuplicacyPruneM rest exec (i + 1)

/-- The per-target loop of `performDuplicacyCheck` (`backup-ops.go:357-393`). -/
def performDuplicacyCheckM : List CheckInfoT → (Nat → Option Err) → Nat → Option Err
  | [], _, _ => none
  | _ :: rest, exec, i =>
    match exec i with
    | some e => some e
    | none => performDuplicacyCheckM rest exec (i + 1)

/-- Steps of `performBackup`, in the order they appear in the source. -/
inductive Ev where
  | rotate
  | createLog
  | notifyStart
  | backupOp
  | copyOp
  | pruneOp
  | checkOp
  | notifySuccess
deriving DecidableEq, Repr

/-- The canonical step order of the run orchestrator `performBackup`
(`backup-ops.go:51-109`). -/
def opOrder : List Ev :=
  [Ev.rotate, Ev.createLog, Ev.notifyStart, Ev.backupOp, Ev.copyOp,
   Ev.pruneOp, Ev.checkOp, Ev.notifySuccess]

/-- Environment of one `performBackup` run: the outcomes of the external
collaborators (log rotation, log-file creation, the executor for each
operation kind and target, the success notification) and the command-line
mode flags. -/
structure RunEnv where
  rotateErr : Option Err
  createErr : Option Err
  cmdBackup : Bool
  cmdCopy : Bool
  cmdPrune : Bool
  cmdCheck : Bool
  backupCfg : List BackupInfoT
  backupExec : Nat → ExecOutcome
  backupDur : Nat → Str
  copyCfg : List CopyInfoT
  copyExec : Nat → ExecOutcome
  copyDur : Nat → Str
  pruneCfg : List PruneInfoT
  pruneExec : Nat → Option Err
  checkCfg : List CheckInfoT
  checkExec : Nat → Option Err
  notifySuccessErr : Option Err

/-- Result of the backup operation for a run environment. -/
def backupRes (env : RunEnv) : List backupRevision × Option Err :=
  performDuplicacyBackupM env.backupCfg env.backupExec env.backupDur

/-- Result of the copy operation for a run environment. -/
def copyRes (env : RunEnv) : List copyRevision × Option Err :=
  performDuplicacyCopyM env.copyCfg env.copyExec env.copyDur

/-- Result of the prune operation for a run environment. -/
def pruneRes (env : RunEnv) : Option Err :=
  performDuplicacyPruneM env.pruneCfg env.pruneExec 0

/-- Result of the check operation for a run environment. -/
def checkRes (env : RunEnv) : Option Err :=
  performDuplicacyCheckM env.checkCfg env.checkExec 0

/-- Observable outcome of one `performBackup` run: the steps that actually
executed, in order, the two result tables, and the returned error. -/
structure RunOut where
  trace : List Ev
  btable : List backupRevision
  ctable : List copyRevision
  result : Option Err
deriving Repr

/-- Final stage of `performBackup`: `notifyOfSuccess` always runs once the
check stage is passed, and its error is returned (`backup-ops.go:106-108`). -/
def runFromNotifyM (env : RunEnv) (tr : List Ev) (bt : List backupRevision)
    (ct : List copyRevision) : RunOut :=
  ⟨tr ++ [Ev.notifySuccess], bt, ct, env.notifySuccessErr⟩

/-- Check stage of `performBackup` (`backup-ops.go:96-100`). -/
def runFromCheckM (env : RunEnv) (tr : List Ev) (bt : List backupRevision)
    (ct : List copyRevision) : RunOut :=
  if env.cmdCheck then
    match checkRes env with
    | some e => ⟨tr ++ [Ev.checkOp], bt, ct, some e⟩
    | none => runFromNotifyM env (tr ++ [Ev.checkOp]) bt ct
  else runFromNotifyM env tr bt ct

/-- Prune stage of `performBackup` (`backup-ops.go:89-93`). -/
def runFromPruneM (env : RunEnv) (tr : List Ev) (bt : List backupRevision)
    (ct : List copyRevision) : RunOut :=
  if env.cmdPrune then
    match pruneRes env with
    | some e => ⟨tr ++ [Ev.pruneOp], bt, ct, some e⟩
    | none => runFromCheckM env (tr ++ [Ev.pruneOp]) bt ct
  else runFromCheckM env tr bt ct

/-- Copy stage of `performBackup` (`backup-ops.go:82-86`). -/
def runFromCopyM (env : RunEnv) (tr : List Ev) (bt : List backupRevision) : RunOut :=
  if env.cmdCopy then
    match copyRes env with
    | (ct, some e) => ⟨tr ++ [Ev.copyOp], bt, ct, some e⟩
    | (ct, none) => runFromPruneM env (tr ++ [Ev.copyOp]) bt ct
  else runFromPruneM env tr bt []

/-- Backup stage of `performBackup` (`backup-ops.go:75-79`), entered after
rotation, log-file creation and the start notification (which returns no
error in the source). -/
def runFromBackupM (env : RunEnv) : RunOut :=
  let tr := [Ev.rotate, Ev.createLog, Ev.notifyStart]
  if env.cmdBackup then
    match backupRes env with
    | (bt, some e) => ⟨tr ++ [Ev.backupOp], bt, [], some e⟩
    | (bt, none) => runFromCopyM env (tr ++ [Ev.backupOp]) bt
  else runFromCopyM env tr []

/-- The run orchestrator `performBackup` (`backup-ops.go:51-109`): rotate the
log files, create the per-run log file, notify of the start, then run the
four operation kinds guarded by their mode flags, returning on the first
error; finally notify of success. -/
def performBackupM (env : RunEnv) : RunOut :=
  match env.rotateErr with
  | some e => ⟨[Ev.rotate], [], [], some e⟩
  | none =>
    match env.createErr with
    | some e => ⟨[Ev.rotate, Ev.createLog], [], [], some e⟩
    | none => runFromBackupM env

/-- All requested steps of a run succeeded (log-file creation aside). -/
def allRequestedOk (env : RunEnv) : Bool :=
  env.rotateErr.isNone
    && (!env.cmdBackup || (backupRes env).2.isNone)
    && (!env.cmdCopy || (copyRes env).2.isNone)
    && (!env.cmdPrune || (pruneRes env).isNone)
    && (!env.cmdCheck || (checkRes env).isNone)

/-- The first error produced along the orchestrator's step order. -/
def firstErrM (env : RunEnv) : Option Err :=
  env.rotateErr <|> env.createErr
    <|> (if env.cmdBackup then (backupRes env).2 else none)
    <|> (if env.cmdCopy then (copyRes env).2 else none)
    <|> (if env.cmdPrune then pruneRes env else none)
    <|> (if env.cmdCheck then checkRes env else none)
    <|> env.notifySuccessErr

lemma takeWhileAppAll {p : Char → Bool} (t r : Str) (h : ∀ c ∈ t, p c = true) :
    (t ++ r).takeWhile p = t ++ r.takeWhile p := by
  induction t with
  | nil => simp
  | cons c cs ih =>
    have hc : p c = true := h c (List.mem_cons_self c cs)
    simp only [List.cons_append, List.takeWhile_cons, hc, if_true]
    rw [ih (fun x hx => h x (List.mem_cons_of_mem c hx))]

lemma dropWhileAppAll {p : Char → Bool} (t r : Str) (h : ∀ c ∈ t, p c = true) :
    (t ++ r).dropWhile p = r.dropWhile p := by
  induction t with
  | nil => simp
  | cons c cs ih =>
    have hc : p c = true := h c (List.mem_cons_self c cs)
    simp only [List.cons_append, List.dropWhile_cons, hc, if_true]
    exact ih (fun x hx => h x (List.mem_cons_of_mem c hx))

lemma dropLitSelfApp (p r : Str) : dropLit p (p ++ r) = some r := by
  induction p with
  | nil => simp [dropLit]
  | cons c cs ih => simp [dropLit, ih]

lemma hasPrefixLApp (p r : Str) : hasPrefixL p (p ++ r) = true := by
  induction p with
  | nil => simp [hasPrefixL]
  | cons c cs ih => simp [hasPrefixL, ih]

/-- A `(\S+)` capture made of non-space characters followed by its separator
is taken exactly. -/
lemma tokTailExact (t : Str) (s0 : Char) (s2 r : Str) (h1 : t ≠ [])
    (h2 : ∀ c ∈ t, nonsp c = true) (h0 : nonsp s0 = false) :
    tokTail (s0 :: s2) (t ++ s0 :: (s2 ++ r)) = some (t, r) := by
  have htake : (t ++ s0 :: (s2 ++ r)).takeWhile nonsp = t := by
    rw [takeWhileAppAll t _ h2]
    simp [List.takeWhile_cons, h0]
  have hdrop : (t ++ s0 :: (s2 ++ r)).dropWhile nonsp = s0 :: (s2 ++ r) := by
    rw [dropWhileAppAll t _ h2]
    simp [List.dropWhile_cons, h0]
  unfold tokTail
  simp only [htake, hdrop, h1, if_false]
  have : dropLit (s0 :: s2) (s0 :: (s2 ++ r)) = some r := by
    simpa [dropLit] using dropLitSelfApp s2 r
  simp [this, h1]

/-- No colon-space split point exists inside a colon-free string. -/
lemma scanColonSpNone {α : Type} (f : Str → Option α) (cs : Str)
    (h : ∀ c ∈ cs, c ≠ ':') : scanColonSp f cs = none := by
  induction cs with
  | nil => rfl
  | cons c rest ih =>
    have hc : c ≠ ':' := h c (List.mem_cons_self c rest)
    have := ih (fun x hx => h x (List.mem_cons_of_mem c hx))
    simp [scanColonSp, this, hc]

/-- Skipping a non-colon character does not change the scan result. -/
lemma scanColonSpStep {α : Type} (f : Str → Option α) (c : Char) (rest : Str)
    (hc : c ≠ ':') : scanColonSp f (c :: rest) = scanColonSp f rest := by
  cases h : scanColonSp f rest <;> simp [scanColonSp, h, hc]

/-- At a genuine colon-space split point with no later split point, the scan
applies the tail matcher. -/
lemma scanColonSpHit {α : Type} (f : Str → Option α) (body : Str)
    (h : scanColonSp f body = none) :
    scanColonSp f (':' :: ' ' :: body) = f body := by
  have h2 : scanColonSp f (' ' :: body) = scanColonSp f body :=
    scanColonSpStep f ' ' body (by decide)
  cases hf : f body <;> simp [scanColonSp, h2, h, hf]

/-- Final token of a pattern: separator followed by nothing required after. -/
lemma tokTailExactEnd (t : Str) (s0 : Char) (s2 : Str) (h1 : t ≠ [])
    (h2 : ∀ c ∈ t, nonsp c = true) (h0 : nonsp s0 = false) :
    tokTail (s0 :: s2) (t ++ s0 :: s2) = some (t, []) := by
  have := tokTailExact t s0 s2 [] h1 h2 h0
  simpa using this

/-- A well-formed token of the documented `Files:`/`All chunks:` patterns:
non-empty, whitespace-free (as `\S+` requires) and colon-free (so that the
constructed line has a unique colon-space split point). -/
def tokOK (t : Str) : Prop := t ≠ [] ∧ ∀ c ∈ t, nonsp c = true ∧ c ≠ ':'

instance (t : Str) : Decidable (tokOK t) := by
  unfold tokOK; infer_instance

/-- The part of a documented `Files:` summary line after the `Files: `
prefix: `<count> total, <size> bytes; <count> new, <size> bytes`. -/
def filesBody (t1 t2 t3 t4 : Str) : Str :=
  t1 ++ (" total, ".data ++ (t2 ++ (" bytes; ".data
    ++ (t3 ++ (" new, ".data ++ (t4 ++ " bytes".data))))))

/-- A `Files:` summary line of the documented shape, built from its four
tokens. -/
def mkFilesLine (t1 t2 t3 t4 : Str) : Str :=
  "Files: ".data ++ filesBody t1 t2 t3 t4

lemma filesTailExact (t1 t2 t3 t4 : Str) (k1 : tokOK t1) (k2 : tokOK t2)
    (k3 : tokOK t3) (k4 : tokOK t4) :
    filesTail (filesBody t1 t2 t3 t4) = some (t1, t2, t3, t4) := by
  have e1 : tokTail (" total, ".data) (filesBody t1 t2 t3 t4)
      = some (t1, t2 ++ (" bytes; ".data
          ++ (t3 ++ (" new, ".data ++ (t4 ++ " bytes".data))))) :=
    tokTailExact t1 ' ' ("total, ".data) _ k1.1 (fun c hc => (k1.2 c hc).1)
      (by decide)
  have e2 : tokTail (" bytes; ".data)
      (t2 ++ (" bytes; ".data ++ (t3 ++ (" new, ".data ++ (t4 ++ " bytes".data)))))
      = some (t2, t3 ++ (" new, ".data ++ (t4 ++ " bytes".data))) :=
    tokTailExact t2 ' ' ("bytes; ".data) _ k2.1 (fun c hc => (k2.2 c hc).1)
      (by decide)
  have e3 : tokTail (" new, ".data) (t3 ++ (" new, ".data ++ (t4 ++ " bytes".data)))
      = some (t3, t4 ++ " bytes".data) :=
    tokTailExact t3 ' ' ("new, ".data) _ k3.1 (fun c hc => (k3.2 c hc).1)
      (by decide)
  have e4 : tokTail (" bytes".data) (t4 ++ " bytes".data) = some (t4, []) :=
    tokTailExactEnd t4 ' ' ("bytes".data) k4.1 (fun c hc => (k4.2 c hc).1)
      (by decide)
  unfold filesTail
  rw [e1]
  simp only [e2, e3, e4]

lemma filesBodyColonFree (t1 t2 t3 t4 : Str) (k1 : tokOK t1) (k2 : tokOK t2)
    (k3 : tokOK t3) (k4 : tokOK t4) :
    ∀ c ∈ filesBody t1 t2 t3 t4, c ≠ ':' := by
  have l1 : ∀ c ∈ (" total, ".data : Str), c ≠ ':' := by decide
  have l2 : ∀ c ∈ (" bytes; ".data : Str), c ≠ ':' := by decide
  have l3 : ∀ c ∈ (" new, ".data : Str), c ≠ ':' := by decide
  have l4 : ∀ c ∈ (" bytes".data : Str), c ≠ ':' := by decide
  intro c hc
  simp only [filesBody, List.mem_append] at hc
  rcases hc with h | h | h | h | h | h | h | h
  · exact (k1.2 c h).2
  · exact l1 c h
  · exact (k2.2 c h).2
  · exact l2 c h
  · exact (k3.2 c h).2
  · exact l3 c h
  · exact (k4.2 c h).2
  · exact l4 c h

lemma filesMatchLExact (t1 t2 t3 t4 : Str) (k1 : tokOK t1) (k2 : tokOK t2)
    (k3 : tokOK t3) (k4 : tokOK t4) :
    filesMatchL (mkFilesLine t1 t2 t3 t4) = some (t1, t2, t3, t4) := by
  have hnone : scanColonSp filesTail (filesBody t1 t2 t3 t4) = none :=
    scanColonSpNone _ _ (filesBodyColonFree t1 t2 t3 t4 k1 k2 k3 k4)
  have key : scanColonSp filesTail
      ('F' :: 'i' :: 'l' :: 'e' :: 's' :: ':' :: ' ' :: filesBody t1 t2 t3 t4)
      = filesTail (filesBody t1 t2 t3 t4) := by
    rw [scanColonSpStep _ 'F' _ (by decide), scanColonSpStep _ 'i' _ (by decide),
        scanColonSpStep _ 'l' _ (by decide), scanColonSpStep _ 'e' _ (by decide),
        scanColonSpStep _ 's' _ (by decide),
        scanColonSpHit _ _ hnone]
  calc filesMatchL (mkFilesLine t1 t2 t3 t4)
      = filesTail (filesBody t1 t2 t3 t4) := key
    _ = some (t1, t2, t3, t4) := filesTailExact t1 t2 t3 t4 k1 k2 k3 k4

/-- C4: for every output line of the documented shape
`Files: <count> total, <size> bytes; <count> new, <size> bytes`, the line
classifier sets exactly the four fields `filesTotalCount`, `filesTotalSize`,
`filesNewCount` and `filesNewSize` of the in-progress record to the four
captured tokens verbatim, and modifies no other field of the record. -/
theorem C4_files_line_sets_exactly_four_fields (t1 t2 t3 t4 : Str)
    (r : backupRevision) (k1 : tokOK t1) (k2 : tokOK t2) (k3 : tokOK t3)
    (k4 : tokOK t4) :
    backupLoggerStep r (mkFilesLine t1 t2 t3 t4) =
      { r with filesTotalCount := t1, filesTotalSize := t2,
               filesNewCount := t3, filesNewSize := t4 } := by
  have hpre : hasPrefixL ("Files:".data) (mkFilesLine t1 t2 t3 t4) = true :=
    hasPrefixLApp ("Files:".data) (' ' :: filesBody t1 t2 t3 t4)
  simp [backupLoggerStep, applyFiles, hpre,
        filesMatchLExact t1 t2 t3 t4 k1 k2 k3 k4]

/-- Witness for C4 at the spec's end-to-end example line. -/
theorem C4_witness :
    backupLoggerStep emptyBackupRevision
        (mkFilesLine ("100".data) ("10G".data) ("5".data) ("200M".data)) =
      { emptyBackupRevision with
          filesTotalCount := "100".data, filesTotalSize := "10G".data,
          filesNewCount := "5".data, filesNewSize := "200M".data } :=
  C4_files_line_sets_exactly_four_fields ("100".data) ("10G".data) ("5".data)
    ("200M".data) emptyBackupRevision (by decide) (by decide) (by decide)
    (by decide)

lemma applyFilesIdem (r : backupRevision) (l : Str) :
    applyFiles (applyFiles r l) l = applyFiles r l := by
  cases hm : filesMatchL l with
  | none => unfold applyFiles; rw [hm]
  | some q => obtain ⟨a, b, c, d⟩ := q; unfold applyFiles; rw [hm]

lemma applyChunksIdem (r : backupRevision) (l : Str) :
    applyChunks (applyChunks r l) l = applyChunks r l := by
  cases hm : chunksMatchL l with
  | none => unfold applyChunks; rw [hm]
  | some q => obtain ⟨a, b, c, d, e⟩ := q; unfold applyChunks; rw [hm]

/-- C8: observing the same output line twice in succession leaves the
in-progress backup record exactly as observing it once; classification and
field merging are idempotent for every line, recognized or not. -/
theorem C8_observe_idempotent (r : backupRevision) (l : Str) :
    backupLoggerStep (backupLoggerStep r l) l = backupLoggerStep r l := by
  by_cases h1 : hasPrefixL ("Files:".data) l = true
  · simp [backupLoggerStep, h1, applyFilesIdem]
  · by_cases h2 : hasPrefixL ("All chunks:".data) l = true
    · simp [backupLoggerStep, h1, h2, applyChunksIdem]
    · simp [backupLoggerStep, h1, h2]

/-- C7: a line that begins with none of the recognized prefixes and does not
end with the authorization-failure suffix leaves every field of the
in-progress backup record unchanged; likewise a line without the copy
classifier's recognized prefix leaves the copy record unchanged. -/
theorem C7_unclassified_line_frame (l : Str)
    (h1 : hasPrefixL ("Files:".data) l = false)
    (h2 : hasPrefixL ("All chunks:".data) l = false)
    (h3 : hasPrefixL ("Enter storage password:".data) l = false)
    (h4 : hasSuffixL ("Authorization failure".data) l = false) :
    (∀ r : backupRevision, backupLoggerStep r l = r) ∧
      (hasPrefixL ("Copy complete, ".data) l = false →
        ∀ c : copyRevision, copyLoggerStep c l = c) := by
  constructor
  · intro r; simp [backupLoggerStep, h1, h2]
  · intro h5 c; simp [copyLoggerStep, h5]

/-- Witness for C7 at a concrete unclassified line. -/
theorem C7_witness :
    backupLoggerStep emptyBackupRevision ("hello".data) = emptyBackupRevision ∧
      copyLoggerStep emptyCopyRevision ("hello".data) = emptyCopyRevision := by
  have h := C7_unclassified_line_frame ("hello".data) (by decide) (by decide)
    (by decide) (by decide)
  exact ⟨h.1 emptyBackupRevision, h.2 (by decide) emptyCopyRevision⟩

/-- C5: a prune target whose keep specification was stored as `7 30 365`
(and therefore rewritten by the configuration loader) yields an argument
list containing `-keep 7 -keep 30 -keep 365` as six discrete arguments
immediately after the `-storage <name>` pair. -/
theorem C5_keep_expansion (targs : List Str) (storage threads quote : Str)
    (all : Bool) :
    buildPruneArgs targs ⟨storage, expandKeep ("7 30 365".data), threads, all, quote⟩ =
      targs ++ ["prune".data, "-storage".data, storage]
        ++ ["-keep".data, "7".data, "-keep".data, "30".data,
            "-keep".data, "365".data]
        ++ (["-threads".data, threads]
            ++ (if all then ["-all".data] else [])
            ++ (if quote ≠ [] then [' ' :: quote] else [])) := by
  have hk : splitSp (expandKeep ("7 30 365".data)) =
      ["-keep".data, "7".data, "-keep".data, "30".data,
       "-keep".data, "365".data] := by decide
  simp [buildPruneArgs, hk]

lemma backupAuxAllOk (exec : Nat → ExecOutcome) (dur : Nat → Str) :
    ∀ (cfg : List BackupInfoT) (i : Nat) (entry : backupRevision)
      (table : List backupRevision),
      (∀ j, j < cfg.length → (exec (i + j)).isOk = true) →
      (performDuplicacyBackupAux exec dur cfg i entry table).2 = none ∧
        (performDuplicacyBackupAux exec dur cfg i entry table).1.map
            backupRevision.storage
          = table.map backupRevision.storage ++ cfg.map BackupInfoT.name := by
  intro cfg
  induction cfg with
  | nil => intro i entry table h; simp [performDuplicacyBackupAux]
  | cons bi rest ih =>
    intro i entry table h
    have h0 : (exec i).isOk = true := by
      have := h 0 (by simp)
      rwa [Nat.add_zero] at this
    cases hex : exec i with
    | fail e => rw [hex] at h0; simp [ExecOutcome.isOk] at h0
    | ok lines =>
      simp only [performDuplicacyBackupAux, hex]
      have hrest := ih (i + 1)
        (finishEntry bi (dur i) (lines.foldl backupLoggerStep entry))
        (table ++ [finishEntry bi (dur i) (lines.foldl backupLoggerStep entry)])
        (fun j hj => by
          have := h (j + 1) (by simpa using Nat.succ_lt_succ hj)
          rwa [show i + (j + 1) = i + 1 + j by omega] at this)
      refine ⟨hrest.1, ?_⟩
      rw [hrest.2]
      simp [finishEntry]

/-- C2: a run over N backup targets in which every invocation succeeds
produces no error and appends exactly N entries to the backup result table,
in configuration order, each carrying the corresponding target's storage
name. -/
theorem C2_all_success_table_shape (cfg : List BackupInfoT)
    (exec : Nat → ExecOutcome) (dur : Nat → Str)
    (h : ∀ j, j < cfg.length → (exec j).isOk = true) :
    (performDuplicacyBackupM cfg exec dur).2 = none ∧
      (performDuplicacyBackupM cfg exec dur).1.map backupRevision.storage
        = cfg.map BackupInfoT.name ∧
      (performDuplicacyBackupM cfg exec dur).1.length = cfg.length := by
  have key := backupAuxAllOk exec dur cfg 0 emptyBackupRevision []
    (fun j hj => by rw [Nat.zero_add]; exact h j hj)
  refine ⟨key.1, by simpa using key.2, ?_⟩
  have hlen := congrArg List.length key.2
  simpa using hlen

/-- Witness for C2 with two targets whose invocations both succeed. -/
theorem C2_witness :
    (performDuplicacyBackupM
        [⟨"one".data, "1".data, false, [], []⟩, ⟨"two".data, "4".data, false, [], []⟩]
        (fun _ => ExecOutcome.ok []) (fun _ => "1s".data)).2 = none ∧
      (performDuplicacyBackupM
        [⟨"one".data, "1".data, false, [], []⟩, ⟨"two".data, "4".data, false, [], []⟩]
        (fun _ => ExecOutcome.ok []) (fun _ => "1s".data)).1.map
          backupRevision.storage = ["one".data, "two".data] ∧
      (performDuplicacyBackupM
        [⟨"one".data, "1".data, false, [], []⟩, ⟨"two".data, "4".data, false, [], []⟩]
        (fun _ => ExecOutcome.ok []) (fun _ => "1s".data)).1.length = 2 :=
  C2_all_success_table_shape
    [⟨"one".data, "1".data, false, [], []⟩, ⟨"two".data, "4".data, false, [], []⟩]
    (fun _ => ExecOutcome.ok []) (fun _ => "1s".data) (fun _ _ => rfl)

lemma backupAuxFail (exec : Nat → ExecOutcome) (dur : Nat → Str) (e : Err) :
    ∀ (cfg : List BackupInfoT) (k i : Nat) (entry : backupRevision)
      (table : List backupRevision),
      k < cfg.length →
      (∀ j, j < k → (exec (i + j)).isOk = true) →
      exec (i + k) = ExecOutcome.fail e →
      (performDuplicacyBackupAux exec dur cfg i entry table).2 = some e ∧
        (performDuplicacyBackupAux exec dur cfg i entry table).1.length
          = table.length + k := by
  intro cfg
  induction cfg with
  | nil => intro k i entry table hk; simp at hk
  | cons bi rest ih =>
    intro k i entry table hk hok hfail
    cases k with
    | zero =>
      have h0 : exec i = ExecOutcome.fail e := by
        rwa [Nat.add_zero] at hfail
      simp [performDuplicacyBackupAux, h0]
    | succ k2 =>
      have h0 : (exec i).isOk = true := by
        have := hok 0 (Nat.succ_pos k2)
        rwa [Nat.add_zero] at this
      cases hex : exec i with
      | fail e2 => rw [hex] at h0; simp [ExecOutcome.isOk] at h0
      | ok lines =>
        simp only [performDuplicacyBackupAux, hex]
        have hrest := ih k2 (i + 1)
          (finishEntry bi (dur i) (lines.foldl backupLoggerStep entry))
          (table ++ [finishEntry bi (dur i) (lines.foldl backupLoggerStep entry)])
          (by simpa using hk)
          (fun j hj => by
            have := hok (j + 1) (Nat.succ_lt_succ hj)
            rwa [show i + (j + 1) = i + 1 + j by omega] at this)
          (by
            have := hfail
            rwa [show i + (k2 + 1) = i + 1 + k2 by omega] at this)
        refine ⟨hrest.1, ?_⟩
        rw [hrest.2]
        simp
        omega

lemma backupAuxAgree (dur : Nat → Str) (e : Err) :
    ∀ (cfg : List BackupInfoT) (k i : Nat) (entry : backupRevision)
      (table : List backupRevision) (exec exec2 : Nat → ExecOutcome),
      (∀ j, j ≤ k → exec2 (i + j) = exec (i + j)) →
      (∀ j, j < k → (exec (i + j)).isOk = true) →
      exec (i + k) = ExecOutcome.fail e →
      performDuplicacyBackupAux exec2 dur cfg i entry table
        = performDuplicacyBackupAux exec dur cfg i entry table := by
  intro cfg
  induction cfg with
  | nil => intro k i entry table exec exec2 hag hok hfail; rfl
  | cons bi rest ih =>
    intro k i entry table exec exec2 hag hok hfail
    have hag0 : exec2 i = exec i := by
      have := hag 0 (Nat.zero_le k)
      rwa [Nat.add_zero] at this
    cases k with
    | zero =>
      have h0 : exec i = ExecOutcome.fail e := by rwa [Nat.add_zero] at hfail
      simp [performDuplicacyBackupAux, hag0, h0]
    | succ k2 =>
      have h0 : (exec i).isOk = true := by
        have := hok 0 (Nat.succ_pos k2)
        rwa [Nat.add_zero] at this
      cases hex : exec i with
      | fail e2 => rw [hex] at h0; simp [ExecOutcome.isOk] at h0
      | ok lines =>
        have hex2 : exec2 i = ExecOutcome.ok lines := by rw [hag0, hex]
        simp only [performDuplicacyBackupAux, hex, hex2]
        exact ih k2 (i + 1) _ _ exec exec2
          (fun j hj => by
            have := hag (j + 1) (Nat.succ_le_succ hj)
            rwa [show i + (j + 1) = i + 1 + j by omega] at this)
          (fun j hj => by
            have := hok (j + 1) (Nat.succ_lt_succ hj)
            rwa [show i + (j + 1) = i + 1 + j by omega] at this)
          (by rwa [show i + (k2 + 1) = i + 1 + k2 by omega] at hfail)

/-- C1: if the (K+1)-st configured backup target's invocation fails (zero
based index K) after K successes, the run's backup result table holds
exactly K entries, the executor's error is returned unchanged from the
orchestrator, the copy, prune and check operations never run, no success
notification is sent, and the whole outcome is independent of the executor's
behaviour on any later target. -/
theorem C1_target_failure_aborts_run (env : RunEnv) (k : Nat) (e : Err)
    (h0 : env.rotateErr = none) (h1 : env.createErr = none)
    (h2 : env.cmdBackup = true) (hk : k < env.backupCfg.length)
    (hok : ∀ j, j < k → (env.backupExec j).isOk = true)
    (hfail : env.backupExec k = ExecOutcome.fail e) :
    (performBackupM env).result = some e ∧
      (performBackupM env).btable.length = k ∧
      Ev.copyOp ∉ (performBackupM env).trace ∧
      Ev.pruneOp ∉ (performBackupM env).trace ∧
      Ev.checkOp ∉ (performBackupM env).trace ∧
      Ev.notifySuccess ∉ (performBackupM env).trace ∧
      ∀ exec2 : Nat → ExecOutcome,
        (∀ j, j ≤ k → exec2 j = env.backupExec j) →
        performDuplicacyBackupM env.backupCfg exec2 env.backupDur
          = performDuplicacyBackupM env.backupCfg env.backupExec env.backupDur := by
  have hfailM := backupAuxFail env.backupExec env.backupDur e env.backupCfg k 0
    emptyBackupRevision [] hk
    (fun j hj => by rw [Nat.zero_add]; exact hok j hj)
    (by rw [Nat.zero_add]; exact hfail)
  have hres : backupRes env = ((backupRes env).1, some e) := by
    rw [← hfailM.1]; rfl
  obtain ⟨bt, hbt⟩ : ∃ bt, backupRes env = (bt, some e) := ⟨(backupRes env).1, hres⟩
  have hrun : performBackupM env =
      ⟨[Ev.rotate, Ev.createLog, Ev.notifyStart, Ev.backupOp], bt, [], some e⟩ := by
    simp [performBackupM, runFromBackupM, h0, h1, h2, hbt]
  have hbtlen : bt.length = k := by
    have : (backupRes env).1 = bt := by rw [hbt]
    rw [← this]
    simpa using hfailM.2
  rw [hrun]
  refine ⟨rfl, hbtlen, by simp, by simp, by simp, by simp, ?_⟩
  intro exec2 hag
  exact backupAuxAgree env.backupDur e env.backupCfg k 0 emptyBackupRevision []
    env.backupExec exec2
    (fun j hj => by rw [Nat.zero_add]; exact hag j hj)
    (fun j hj => by rw [Nat.zero_add]; exact hok j hj)
    (by rw [Nat.zero_add]; exact hfail)

/-- A concrete run environment with two backup targets whose second
invocation fails. -/
def envC1 : RunEnv where
  rotateErr := none
  createErr := none
  cmdBackup := true
  cmdCopy := true
  cmdPrune := true
  cmdCheck := true
  backupCfg := [⟨"one".data, "1".data, false, [], []⟩,
                ⟨"two".data, "1".data, false, [], []⟩]
  backupExec := fun i => if i = 0 then ExecOutcome.ok [] else ExecOutcome.fail "boom"
  backupDur := fun _ => "1s".data
  copyCfg := []
  copyExec := fun _ => ExecOutcome.ok []
  copyDur := fun _ => "1s".data
  pruneCfg := []
  pruneExec := fun _ => none
  checkCfg := []
  checkExec := fun _ => none
  notifySuccessErr := none

/-- Witness for C1 in the environment `envC1`. -/
theorem C1_witness :
    (performBackupM envC1).result = some "boom" ∧
      (performBackupM envC1).btable.length = 1 ∧
      Ev.copyOp ∉ (performBackupM envC1).trace ∧
      Ev.pruneOp ∉ (performBackupM envC1).trace ∧
      Ev.checkOp ∉ (performBackupM envC1).trace ∧
      Ev.notifySuccess ∉ (performBackupM envC1).trace := by
  have h := C1_target_failure_aborts_run envC1 1 "boom" rfl rfl rfl (by decide)
    (fun j hj => by
      have hj0 : j = 0 := by omega
      subst hj0
      decide)
    (by decide)
  exact ⟨h.1, h.2.1, h.2.2.1, h.2.2.2.1, h.2.2.2.2.1, h.2.2.2.2.2.1⟩

/-- Counterexample to C3: the in-progress record is declared once, before
the target loop, so fields observed while processing the first target leak
into the second target's finalized record.  Here the first target's output
contains a `Files:` summary and the second target's output contains nothing,
yet the second appended record carries the first target's file count instead
of its unset (empty) state. -/
theorem C3_counterexample :
    ((performDuplicacyBackupM
        [⟨"s1".data, "1".data, false, [], []⟩, ⟨"s2".data, "1".data, false, [], []⟩]
        (fun i => if i = 0 then
            ExecOutcome.ok [("Files: 100 total, 10G bytes; 5 new, 200M bytes".data)]
          else ExecOutcome.ok [])
        (fun _ => "1s".data)).1.getD 1 emptyBackupRevision).filesTotalCount
      = "100".data ∧ "100".data ≠ ([] : Str) := by
  constructor
  · decide
  · decide

lemma applyChunksKeepsFiles (r : backupRevision) (l : Str) :
    (applyChunks r l).filesTotalCount = r.filesTotalCount ∧
      (applyChunks r l).filesTotalSize = r.filesTotalSize ∧
      (applyChunks r l).filesNewCount = r.filesNewCount ∧
      (applyChunks r l).filesNewSize = r.filesNewSize := by
  cases hm : chunksMatchL l with
  | none => unfold applyChunks; rw [hm]; exact ⟨rfl, rfl, rfl, rfl⟩
  | some q =>
    obtain ⟨a, b, c, d, e⟩ := q
    unfold applyChunks; rw [hm]; exact ⟨rfl, rfl, rfl, rfl⟩

lemma applyFilesKeepsChunks (r : backupRevision) (l : Str) :
    (applyFiles r l).chunkTotalCount = r.chunkTotalCount ∧
      (applyFiles r l).chunkTotalSize = r.chunkTotalSize ∧
      (applyFiles r l).chunkNewCount = r.chunkNewCount ∧
      (applyFiles r l).chunkNewSize = r.chunkNewSize ∧
      (applyFiles r l).chunkNewUploaded = r.chunkNewUploaded := by
  cases hm : filesMatchL l with
  | none => unfold applyFiles; rw [hm]; exact ⟨rfl, rfl, rfl, rfl, rfl⟩
  | some q =>
    obtain ⟨a, b, c, d⟩ := q
    unfold applyFiles; rw [hm]; exact ⟨rfl, rfl, rfl, rfl, rfl⟩

lemma stepKeepsFilesNoMatch (r : backupRevision) (l : Str)
    (h : filesMatchL l = none) :
    (backupLoggerStep r l).filesTotalCount = r.filesTotalCount ∧
      (backupLoggerStep r l).filesTotalSize = r.filesTotalSize ∧
      (backupLoggerStep r l).filesNewCount = r.filesNewCount ∧
      (backupLoggerStep r l).filesNewSize = r.filesNewSize := by
  by_cases h1 : hasPrefixL ("Files:".data) l = true
  · have hstep : backupLoggerStep r l = r := by
      simp [backupLoggerStep, h1, applyFiles, h]
    rw [hstep]
    exact ⟨rfl, rfl, rfl, rfl⟩
  · by_cases h2 : hasPrefixL ("All chunks:".data) l = true
    · have hstep : backupLoggerStep r l = applyChunks r l := by
        simp [backupLoggerStep, h1, h2]
      rw [hstep]
      exact applyChunksKeepsFiles r l
    · have hstep : backupLoggerStep r l = r := by
        simp [backupLoggerStep, h1, h2]
      rw [hstep]
      exact ⟨rfl, rfl, rfl, rfl⟩

lemma stepKeepsChunksNoMatch (r : backupRevision) (l : Str)
    (h : chunksMatchL l = none) :
    (backupLoggerStep r l).chunkTotalCount = r.chunkTotalCount ∧
      (backupLoggerStep r l).chunkTotalSize = r.chunkTotalSize ∧
      (backupLoggerStep r l).chunkNewCount = r.chunkNewCount ∧
      (backupLoggerStep r l).chunkNewSize = r.chunkNewSize ∧
      (backupLoggerStep r l).chunkNewUploaded = r.chunkNewUploaded := by
  by_cases h1 : hasPrefixL ("Files:".data) l = true
  · have hstep : backupLoggerStep r l = applyFiles r l := by
      simp [backupLoggerStep, h1]
    rw [hstep]
    exact applyFilesKeepsChunks r l
  · by_cases h2 : hasPrefixL ("All chunks:".data) l = true
    · have hstep : backupLoggerStep r l = r := by
        simp [backupLoggerStep, h1, h2, applyChunks, h]
      rw [hstep]
      exact ⟨rfl, rfl, rfl, rfl, rfl⟩
    · have hstep : backupLoggerStep r l = r := by
        simp [backupLoggerStep, h1, h2]
      rw [hstep]
      exact ⟨rfl, rfl, rfl, rfl, rfl⟩

lemma foldKeepsFilesNoMatch (lines : List Str) :
    ∀ r : backupRevision, (∀ l ∈ lines, filesMatchL l = none) →
      (lines.foldl backupLoggerStep r).filesTotalCount = r.filesTotalCount ∧
        (lines.foldl backupLoggerStep r).filesTotalSize = r.filesTotalSize ∧
        (lines.foldl backupLoggerStep r).filesNewCount = r.filesNewCount ∧
        (lines.foldl backupLoggerStep r).filesNewSize = r.filesNewSize := by
  induction lines with
  | nil => intro r h; exact ⟨rfl, rfl, rfl, rfl⟩
  | cons l ls ih =>
    intro r h
    have hstep := stepKeepsFilesNoMatch r l (h l (List.mem_cons_self l ls))
    have hrest := ih (backupLoggerStep r l)
      (fun x hx => h x (List.mem_cons_of_mem l hx))
    simp only [List.foldl_cons]
    exact ⟨hrest.1.trans hstep.1, hrest.2.1.trans hstep.2.1,
           hrest.2.2.1.trans hstep.2.2.1, hrest.2.2.2.trans hstep.2.2.2⟩

lemma foldKeepsChunksNoMatch (lines : List Str) :
    ∀ r : backupRevision, (∀ l ∈ lines, chunksMatchL l = none) →
      (lines.foldl backupLoggerStep r).chunkTotalCount = r.chunkTotalCount ∧
        (lines.foldl backupLoggerStep r).chunkTotalSize = r.chunkTotalSize ∧
        (lines.foldl backupLoggerStep r).chunkNewCount = r.chunkNewCount ∧
        (lines.foldl backupLoggerStep r).chunkNewSize = r.chunkNewSize ∧
        (lines.foldl backupLoggerStep r).chunkNewUploaded = r.chunkNewUploaded := by
  induction lines with
  | nil => intro r h; exact ⟨rfl, rfl, rfl, rfl, rfl⟩
  | cons l ls ih =>
    intro r h
    have hstep := stepKeepsChunksNoMatch r l (h l (List.mem_cons_self l ls))
    have hrest := ih (backupLoggerStep r l)
      (fun x hx => h x (List.mem_cons_of_mem l hx))
    simp only [List.foldl_cons]
    exact ⟨hrest.1.trans hstep.1, hrest.2.1.trans hstep.2.1,
           hrest.2.2.1.trans hstep.2.2.1, hrest.2.2.2.1.trans hstep.2.2.2.1,
           hrest.2.2.2.2.trans hstep.2.2.2.2⟩

lemma auxTableExtends (exec : Nat → ExecOutcome) (dur : Nat → Str) :
    ∀ (cfg : List BackupInfoT) (i : Nat) (entry : backupRevision)
      (table : List backupRevision),
      ∃ s, (performDuplicacyBackupAux exec dur cfg i entry table).1 = table ++ s := by
  intro cfg
  induction cfg with
  | nil => intro i entry table; exact ⟨[], by simp [performDuplicacyBackupAux]⟩
  | cons bi rest ih =>
    intro i entry table
    cases hex : exec i with
    | fail e => exact ⟨[], by simp [performDuplicacyBackupAux, hex]⟩
    | ok lines =>
      obtain ⟨s, hs⟩ := ih (i + 1)
        (finishEntry bi (dur i) (lines.foldl backupLoggerStep entry))
        (table ++ [finishEntry bi (dur i) (lines.foldl backupLoggerStep entry)])
      refine ⟨finishEntry bi (dur i) (lines.foldl backupLoggerStep entry) :: s, ?_⟩
      simp only [performDuplicacyBackupAux, hex]
      rw [hs]
      simp

lemma getDAppendRight {α : Type} (l1 l2 : List α) (n : Nat) (d : α) :
    (l1 ++ l2).getD (l1.length + n) d = l2.getD n d := by
  induction l1 with
  | nil => simp
  | cons a l1t ih =>
    have hidx : (a :: l1t).length + n = (l1t.length + n) + 1 := by
      simp only [List.length_cons]
      omega
    rw [List.cons_append, hidx, List.getD_cons_succ]
    exact ih

lemma auxFirstEntry (exec : Nat → ExecOutcome) (dur : Nat → Str)
    (bi : BackupInfoT) (rest : List BackupInfoT) (i : Nat)
    (entry : backupRevision) (table : List backupRevision) (lines : List Str)
    (hex : exec i = ExecOutcome.ok lines) :
    (performDuplicacyBackupAux exec dur (bi :: rest) i entry table).1.getD
        table.length emptyBackupRevision
      = finishEntry bi (dur i) (lines.foldl backupLoggerStep entry) := by
  obtain ⟨s, hs⟩ := auxTableExtends exec dur rest (i + 1)
    (finishEntry bi (dur i) (lines.foldl backupLoggerStep entry))
    (table ++ [finishEntry bi (dur i) (lines.foldl backupLoggerStep entry)])
  simp only [performDuplicacyBackupAux, hex]
  rw [hs, List.append_assoc]
  have hget := getDAppendRight table
    ([finishEntry bi (dur i) (lines.foldl backupLoggerStep entry)] ++ s) 0
    emptyBackupRevision
  simpa using hget

/-- The accumulator record passed into target `k+1` is exactly the record
finalized for target `k`, so consecutive table entries are linked by one
fold over the later target's output lines. -/
lemma auxConsec (exec : Nat → ExecOutcome) (dur : Nat → Str) :
    ∀ (cfg : List BackupInfoT) (k i : Nat) (entry : backupRevision)
      (table : List backupRevision) (lines : List Str),
      (∀ j, j ≤ k → (exec (i + j)).isOk = true) →
      k + 1 < cfg.length →
      exec (i + (k + 1)) = ExecOutcome.ok lines →
      ∃ bi : BackupInfoT,
        (performDuplicacyBackupAux exec dur cfg i entry table).1.getD
            (table.length + (k + 1)) emptyBackupRevision
          = finishEntry bi (dur (i + (k + 1)))
              (lines.foldl backupLoggerStep
                ((performDuplicacyBackupAux exec dur cfg i entry table).1.getD
                  (table.length + k) emptyBackupRevision)) := by
  intro cfg
  induction cfg with
  | nil => intro k i entry table lines hok hk hexec; simp at hk
  | cons b0 rest ih =>
    intro k i entry table lines hok hk hexec
    have h0 : (exec i).isOk = true := by
      have := hok 0 (Nat.zero_le k)
      rwa [Nat.add_zero] at this
    cases hex : exec i with
    | fail e => rw [hex] at h0; simp [ExecOutcome.isOk] at h0
    | ok lines0 =>
      cases k with
      | zero =>
        have hrl : 0 < rest.length := by
          simp only [List.length_cons] at hk
          omega
        cases rest with
        | nil => simp at hrl
        | cons b1 rest2 =>
          have hex1 : exec (i + 1) = ExecOutcome.ok lines := by
            simpa using hexec
          simp only [performDuplicacyBackupAux, hex, hex1]
          obtain ⟨s, hs⟩ := auxTableExtends exec dur rest2 (i + 1 + 1)
            (finishEntry b1 (dur (i + 1))
              (lines.foldl backupLoggerStep
                (finishEntry b0 (dur i) (lines0.foldl backupLoggerStep entry))))
            ((table ++ [finishEntry b0 (dur i) (lines0.foldl backupLoggerStep entry)])
              ++ [finishEntry b1 (dur (i + 1))
                  (lines.foldl backupLoggerStep
                    (finishEntry b0 (dur i) (lines0.foldl backupLoggerStep entry)))])
          refine ⟨b1, ?_⟩
          rw [hs]
          have g0 := getDAppendRight table
            ([finishEntry b0 (dur i) (lines0.foldl backupLoggerStep entry)]
              ++ ([finishEntry b1 (dur (i + 1))
                  (lines.foldl backupLoggerStep
                    (finishEntry b0 (dur i)
                      (lines0.foldl backupLoggerStep entry)))] ++ s)) 0
            emptyBackupRevision
          have g1 := getDAppendRight table
            ([finishEntry b0 (dur i) (lines0.foldl backupLoggerStep entry)]
              ++ ([finishEntry b1 (dur (i + 1))
                  (lines.foldl backupLoggerStep
                    (finishEntry b0 (dur i)
                      (lines0.foldl backupLoggerStep entry)))] ++ s)) 1
            emptyBackupRevision
          simp only [List.append_assoc, List.cons_append, List.nil_append,
            Nat.add_zero, Nat.zero_add, List.getD_cons_succ,
            List.getD_cons_zero] at g0 g1 ⊢
          rw [g1, g0]
      | succ k2 =>
        have hok2 : ∀ j, j ≤ k2 → (exec (i + 1 + j)).isOk = true := fun j hj => by
          have := hok (j + 1) (Nat.succ_le_succ hj)
          rwa [show i + (j + 1) = i + 1 + j by omega] at this
        have hk2 : k2 + 1 < rest.length := by
          simp only [List.length_cons] at hk
          omega
        have hexec2 : exec (i + 1 + (k2 + 1)) = ExecOutcome.ok lines := by
          rwa [show i + (k2 + 1 + 1) = i + 1 + (k2 + 1) by omega] at hexec
        obtain ⟨bi, hbi⟩ := ih (k2) (i + 1)
          (finishEntry b0 (dur i) (lines0.foldl backupLoggerStep entry))
          (table ++ [finishEntry b0 (dur i) (lines0.foldl backupLoggerStep entry)])
          lines hok2 hk2 hexec2
        refine ⟨bi, ?_⟩
        simp only [performDuplicacyBackupAux, hex]
        have hi1 : (table
            ++ [finishEntry b0 (dur i) (lines0.foldl backupLoggerStep entry)]).length
              + (k2 + 1) = table.length + (k2 + 1 + 1) := by
          simp only [List.length_append, List.length_cons, List.length_nil]
          omega
        have hi2 : (table
            ++ [finishEntry b0 (dur i) (lines0.foldl backupLoggerStep entry)]).length
              + k2 = table.length + (k2 + 1) := by
          simp only [List.length_append, List.length_cons, List.length_nil]
          omega
        rw [hi1, hi2, show i + 1 + (k2 + 1) = i + (k2 + 1 + 1) by omega] at hbi
        exact hbi

/-- C3 as amended: a field whose capture pattern never matched during the
first target's run — including lines that carry a recognized prefix but fail
the capture pattern, the output-format-mismatch case — remains in its unset
(empty) state in the first finalized record of the run; and for every later
target, a field whose capture pattern never matched during that target's run
retains the value it had in the previous target's finalized record, because
the in-progress record is declared before the loop and shared across all
targets (see `C3_counterexample`). -/
theorem C3_amended_unset_and_retention :
    (∀ (bi : BackupInfoT) (rest : List BackupInfoT) (exec : Nat → ExecOutcome)
        (dur : Nat → Str) (lines : List Str),
      exec 0 = ExecOutcome.ok lines →
      ((∀ l ∈ lines, filesMatchL l = none) →
        ((performDuplicacyBackupM (bi :: rest) exec dur).1.getD 0
            emptyBackupRevision).filesTotalCount = [] ∧
        ((performDuplicacyBackupM (bi :: rest) exec dur).1.getD 0
            emptyBackupRevision).filesTotalSize = [] ∧
        ((performDuplicacyBackupM (bi :: rest) exec dur).1.getD 0
            emptyBackupRevision).filesNewCount = [] ∧
        ((performDuplicacyBackupM (bi :: rest) exec dur).1.getD 0
            emptyBackupRevision).filesNewSize = []) ∧
      ((∀ l ∈ lines, chunksMatchL l = none) →
        ((performDuplicacyBackupM (bi :: rest) exec dur).1.getD 0
            emptyBackupRevision).chunkTotalCount = [] ∧
        ((performDuplicacyBackupM (bi :: rest) exec dur).1.getD 0
            emptyBackupRevision).chunkTotalSize = [] ∧
        ((performDuplicacyBackupM (bi :: rest) exec dur).1.getD 0
            emptyBackupRevision).chunkNewCount = [] ∧
        ((performDuplicacyBackupM (bi :: rest) exec dur).1.getD 0
            emptyBackupRevision).chunkNewSize = [] ∧
        ((performDuplicacyBackupM (bi :: rest) exec dur).1.getD 0
            emptyBackupRevision).chunkNewUploaded = [])) ∧
    (∀ (cfg : List BackupInfoT) (exec : Nat → ExecOutcome) (dur : Nat → Str)
        (k : Nat) (lines : List Str),
      (∀ j, j ≤ k → (exec j).isOk = true) →
      k + 1 < cfg.length →
      exec (k + 1) = ExecOutcome.ok lines →
      ((∀ l ∈ lines, filesMatchL l = none) →
        ((performDuplicacyBackupM cfg exec dur).1.getD (k + 1)
            emptyBackupRevision).filesTotalCount
          = ((performDuplicacyBackupM cfg exec dur).1.getD k
              emptyBackupRevision).filesTotalCount ∧
        ((performDuplicacyBackupM cfg exec dur).1.getD (k + 1)
            emptyBackupRevision).filesTotalSize
          = ((performDuplicacyBackupM cfg exec dur).1.getD k
              emptyBackupRevision).filesTotalSize ∧
        ((performDuplicacyBackupM cfg exec dur).1.getD (k + 1)
            emptyBackupRevision).filesNewCount
          = ((performDuplicacyBackupM cfg exec dur).1.getD k
              emptyBackupRevision).filesNewCount ∧
        ((performDuplicacyBackupM cfg exec dur).1.getD (k + 1)
            emptyBackupRevision).filesNewSize
          = ((performDuplicacyBackupM cfg exec dur).1.getD k
              emptyBackupRevision).filesNewSize) ∧
      ((∀ l ∈ lines, chunksMatchL l = none) →
        ((performDuplicacyBackupM cfg exec dur).1.getD (k + 1)
            emptyBackupRevision).chunkTotalCount
          = ((performDuplicacyBackupM cfg exec dur).1.getD k
              emptyBackupRevision).chunkTotalCount ∧
        ((performDuplicacyBackupM cfg exec dur).1.getD (k + 1)
            emptyBackupRevision).chunkTotalSize
          = ((performDuplicacyBackupM cfg exec dur).1.getD k
              emptyBackupRevision).chunkTotalSize ∧
        ((performDuplicacyBackupM cfg exec dur).1.getD (k + 1)
            emptyBackupRevision).chunkNewCount
          = ((performDuplicacyBackupM cfg exec dur).1.getD k
              emptyBackupRevision).chunkNewCount ∧
        ((performDuplicacyBackupM cfg exec dur).1.getD (k + 1)
            emptyBackupRevision).chunkNewSize
          = ((performDuplicacyBackupM cfg exec dur).1.getD k
              emptyBackupRevision).chunkNewSize ∧
        ((performDuplicacyBackupM cfg exec dur).1.getD (k + 1)
            emptyBackupRevision).chunkNewUploaded
          = ((performDuplicacyBackupM cfg exec dur).1.getD k
              emptyBackupRevision).chunkNewUploaded)) := by
  constructor
  · intro bi rest exec dur lines hexec
    have hfe : (performDuplicacyBackupM (bi :: rest) exec dur).1.getD 0
        emptyBackupRevision
        = finishEntry bi (dur 0) (lines.foldl backupLoggerStep emptyBackupRevision) := by
      have := auxFirstEntry exec dur bi rest 0 emptyBackupRevision [] lines hexec
      simpa [performDuplicacyBackupM] using this
    rw [hfe]
    constructor
    · intro h
      have hf := foldKeepsFilesNoMatch lines emptyBackupRevision h
      simpa [finishEntry, emptyBackupRevision] using hf
    · intro h
      have hc := foldKeepsChunksNoMatch lines emptyBackupRevision h
      simpa [finishEntry, emptyBackupRevision] using hc
  · intro cfg exec dur k lines hok hk hexec
    obtain ⟨bi, hbi⟩ := auxConsec exec dur cfg k 0 emptyBackupRevision [] lines
      (fun j hj => by rw [Nat.zero_add]; exact hok j hj) hk
      (by rw [Nat.zero_add]; exact hexec)
    rw [show ([] : List backupRevision).length + (k + 1) = k + 1 by simp,
        show ([] : List backupRevision).length + k = k by simp] at hbi
    have hbi2 : (performDuplicacyBackupM cfg exec dur).1.getD (k + 1)
        emptyBackupRevision
        = finishEntry bi (dur (0 + (k + 1)))
            (lines.foldl backupLoggerStep
              ((performDuplicacyBackupM cfg exec dur).1.getD k
                emptyBackupRevision)) := hbi
    rw [hbi2]
    constructor
    · intro h
      have hf := foldKeepsFilesNoMatch lines
        ((performDuplicacyBackupM cfg exec dur).1.getD k emptyBackupRevision) h
      simpa [finishEntry] using hf
    · intro h
      have hc := foldKeepsChunksNoMatch lines
        ((performDuplicacyBackupM cfg exec dur).1.getD k emptyBackupRevision) h
      simpa [finishEntry] using hc

/-- The executor script for the C3 witness: the first target's output is a
line bearing the `Files:` prefix whose capture pattern does not match (the
format-mismatch case), the second target's output is an unclassified line. -/
def execC3 : Nat → ExecOutcome :=
  fun i => if i = 0 then ExecOutcome.ok [("Files: garbage".data)]
           else ExecOutcome.ok [("hello".data)]

/-- Witness for the amended C3: in a two-target run the first record keeps
its file and chunk fields unset even though a prefixed-but-unparseable line
was observed, and the second record retains the first record's values. -/
theorem C3_amended_witness :
    ((performDuplicacyBackupM
        [⟨"s1".data, "1".data, false, [], []⟩, ⟨"s2".data, "1".data, false, [], []⟩]
        execC3 (fun _ => "1s".data)).1.getD 0
          emptyBackupRevision).filesTotalCount = [] ∧
      ((performDuplicacyBackupM
        [⟨"s1".data, "1".data, false, [], []⟩, ⟨"s2".data, "1".data, false, [], []⟩]
        execC3 (fun _ => "1s".data)).1.getD 0
          emptyBackupRevision).chunkTotalCount = [] ∧
      ((performDuplicacyBackupM
        [⟨"s1".data, "1".data, false, [], []⟩, ⟨"s2".data, "1".data, false, [], []⟩]
        execC3 (fun _ => "1s".data)).1.getD 1
          emptyBackupRevision).filesTotalCount
        = ((performDuplicacyBackupM
            [⟨"s1".data, "1".data, false, [], []⟩, ⟨"s2".data, "1".data, false, [], []⟩]
            execC3 (fun _ => "1s".data)).1.getD 0
              emptyBackupRevision).filesTotalCount ∧
      ((performDuplicacyBackupM
        [⟨"s1".data, "1".data, false, [], []⟩, ⟨"s2".data, "1".data, false, [], []⟩]
        execC3 (fun _ => "1s".data)).1.getD 1
          emptyBackupRevision).chunkTotalCount
        = ((performDuplicacyBackupM
            [⟨"s1".data, "1".data, false, [], []⟩, ⟨"s2".data, "1".data, false, [], []⟩]
            execC3 (fun _ => "1s".data)).1.getD 0
              emptyBackupRevision).chunkTotalCount := by
  have h1 := C3_amended_unset_and_retention.1 ⟨"s1".data, "1".data, false, [], []⟩
    [⟨"s2".data, "1".data, false, [], []⟩] execC3 (fun _ => "1s".data)
    [("Files: garbage".data)] (by decide)
  have h2 := C3_amended_unset_and_retention.2
    [⟨"s1".data, "1".data, false, [], []⟩, ⟨"s2".data, "1".data, false, [], []⟩]
    execC3 (fun _ => "1s".data) 0 [("hello".data)]
    (fun j hj => by
      have hj0 : j = 0 := Nat.le_zero.mp hj
      subst hj0
      decide)
    (by decide) (by decide)
  exact ⟨(h1.1 (by decide)).1, (h1.2 (by decide)).1,
    (h2.1 (by decide)).1, (h2.2 (by decide)).1⟩

/-- A backup target with a non-empty passthrough quote string. -/
def biC9 : BackupInfoT := ⟨"s1".data, "1".data, false, [], "-dry-run".data⟩

/-- Counterexample to C9: the source appends `" " + quote` — one argument
with a space prepended — so the final element of the built argument list is
not the raw passthrough string itself. -/
theorem C9_counterexample :
    (buildBackupArgs [] biC9 0).getLast? = some (' ' :: "-dry-run".data) ∧
      (buildBackupArgs [] biC9 0).getLast? ≠ some ("-dry-run".data) := by
  constructor
  · decide
  · decide

lemma getLastConcat {α : Type} (l : List α) (a : α) :
    (l ++ [a]).getLast? = some a := by
  induction l with
  | nil => rfl
  | cons x xs ih =>
    cases xs with
    | nil => rfl
    | cons y ys =>
      rw [List.cons_append, List.cons_append, List.getLast?_cons_cons]
      simpa using ih

/-- C9 as amended: for a backup or copy target with a non-empty passthrough
quote string, the built argument list ends with a single extra element equal
to one space followed by the quote string, after all other flags. -/
theorem C9_amended_quote_with_space_last (targs : List Str) (bi : BackupInfoT)
    (ci : CopyInfoT) (i j : Nat) (hb : bi.quote ≠ []) (hc : ci.quote ≠ []) :
    (buildBackupArgs targs bi i).getLast? = some (' ' :: bi.quote) ∧
      (buildCopyArgs targs ci j).getLast? = some (' ' :: ci.quote) := by
  constructor
  · simp only [buildBackupArgs, if_pos hb]
    exact getLastConcat _ _
  · simp only [buildCopyArgs, if_pos hc]
    exact getLastConcat _ _

/-- Witness for the amended C9 at concrete backup and copy targets. -/
theorem C9_witness :
    (buildBackupArgs [] biC9 0).getLast? = some (' ' :: biC9.quote) ∧
      (buildCopyArgs [] ⟨"a".data, "b".data, "1".data, "-threads:4".data⟩ 0).getLast?
        = some (' ' :: "-threads:4".data) :=
  C9_amended_quote_with_space_last [] biC9
    ⟨"a".data, "b".data, "1".data, "-threads:4".data⟩ 0 0 (by decide) (by decide)

/-- Default applied to the `All` field of one prune entry during
configuration loading.  The `default:"true"` struct tag (`part_000:56`) is
applied by the external defaults library inside `UnmarshalYAML`
(`part_000:66-76`), but that call runs before the YAML unmarshal populates
the `PruneInfo` slice: the library's `Set` mutates only values reachable
from the struct at call time, and the slice is still empty then, while the
YAML library fills absent fields of the entries it creates with the Go zero
value.  The net effect, modelled here, is that an omitted `all` key loads as
`false` and only an explicit `all: true` enables the flag. -/
def pruneAllLoaded (yamlAll : Option Bool) : Bool := yamlAll.getD false

/-- C10 evaluated at the failing input: a prune entry whose configuration
omits the apply-to-all-snapshots key loads with the flag false, so the built
prune argument list does not contain `-all`; the flag appears only when the
configuration sets it explicitly to true.  This contradicts the claimed
default of true (which is what the `default:"true"` tag was evidently meant
to achieve). -/
theorem C10_omitted_all_loads_false :
    pruneAllLoaded none = false ∧
      "-all".data ∉ buildPruneArgs []
        ⟨"s1".data, expandKeep ("7 30 365".data), "1".data, pruneAllLoaded none, []⟩ ∧
      "-all".data ∈ buildPruneArgs []
        ⟨"s1".data, expandKeep ("7 30 365".data), "1".data, true, []⟩ := by
  refine ⟨rfl, by decide, by decide⟩

/-- Trace suffix contributed by the check stage onwards. -/
def checkTraceSfx (env : RunEnv) : List Ev :=
  if env.cmdCheck then
    match checkRes env with
    | some _ => [Ev.checkOp]
    | none => Ev.checkOp :: [Ev.notifySuccess]
  else [Ev.notifySuccess]

/-- Run result as decided from the check stage onwards. -/
def checkResult (env : RunEnv) : Option Err :=
  if env.cmdCheck then
    match checkRes env with
    | some e => some e
    | none => env.notifySuccessErr
  else env.notifySuccessErr

/-- Trace suffix contributed by the prune stage onwards. -/
def pruneTraceSfx (env : RunEnv) : List Ev :=
  if env.cmdPrune then
    match pruneRes env with
    | some _ => [Ev.pruneOp]
    | none => Ev.pruneOp :: checkTraceSfx env
  else checkTraceSfx env

/-- Run result as decided from the prune stage onwards. -/
def pruneResult (env : RunEnv) : Option Err :=
  if env.cmdPrune then
    match pruneRes env with
    | some e => some e
    | none => checkResult env
  else checkResult env

/-- Trace suffix contributed by the copy stage onwards. -/
def copyTraceSfx (env : RunEnv) : List Ev :=
  if env.cmdCopy then
    match (copyRes env).2 with
    | some _ => [Ev.copyOp]
    | none => Ev.copyOp :: pruneTraceSfx env
  else pruneTraceSfx env

/-- Run result as decided from the copy stage onwards. -/
def copyResult (env : RunEnv) : Option Err :=
  if env.cmdCopy then
    match (copyRes env).2 with
    | some e => some e
    | none => pruneResult env
  else pruneResult env

/-- Final copy result table of a run that reaches the copy stage. -/
def copyTableFinal (env : RunEnv) : List copyRevision :=
  if env.cmdCopy then (copyRes env).1 else []

/-- Trace suffix contributed by the backup stage onwards. -/
def backupTraceSfx (env : RunEnv) : List Ev :=
  if env.cmdBackup then
    match (backupRes env).2 with
    | some _ => [Ev.backupOp]
    | none => Ev.backupOp :: copyTraceSfx env
  else copyTraceSfx env

/-- Run result as decided from the backup stage onwards. -/
def backupResult (env : RunEnv) : Option Err :=
  if env.cmdBackup then
    match (backupRes env).2 with
    | some e => some e
    | none => copyResult env
  else copyResult env

/-- Final backup result table of a run that reaches the backup stage. -/
def backupTableFinal (env : RunEnv) : List backupRevision :=
  if env.cmdBackup then (backupRes env).1 else []

/-- Final copy result table of a run that reaches the backup stage. -/
def ctableFinal (env : RunEnv) : List copyRevision :=
  if env.cmdBackup then
    match (backupRes env).2 with
    | some _ => []
    | none => copyTableFinal env
  else copyTableFinal env

lemma runFromCheckChar (env : RunEnv) (tr : List Ev) (bt : List backupRevision)
    (ct : List copyRevision) :
    runFromCheckM env tr bt ct = ⟨tr ++ checkTraceSfx env, bt, ct, checkResult env⟩ := by
  unfold runFromCheckM runFromNotifyM checkTraceSfx checkResult
  by_cases h : env.cmdCheck = true
  · cases hr : checkRes env <;> simp [h, hr]
  · simp [h]

lemma runFromPruneChar (env : RunEnv) (tr : List Ev) (bt : List backupRevision)
    (ct : List copyRevision) :
    runFromPruneM env tr bt ct = ⟨tr ++ pruneTraceSfx env, bt, ct, pruneResult env⟩ := by
  unfold runFromPruneM pruneTraceSfx pruneResult
  by_cases h : env.cmdPrune = true
  · cases hr : pruneRes env <;> simp [h, hr, runFromCheckChar]
  · simp [h, runFromCheckChar]

lemma runFromCopyChar (env : RunEnv) (tr : List Ev) (bt : List backupRevision) :
    runFromCopyM env tr bt =
      ⟨tr ++ copyTraceSfx env, bt, copyTableFinal env, copyResult env⟩ := by
  unfold runFromCopyM copyTraceSfx copyResult copyTableFinal
  by_cases h : env.cmdCopy = true
  · rcases hce : copyRes env with ⟨ct, cr⟩
    cases cr <;> simp [h, hce, runFromPruneChar]
  · simp [h, runFromPruneChar]

lemma runFromBackupChar (env : RunEnv) :
    runFromBackupM env =
      ⟨[Ev.rotate, Ev.createLog, Ev.notifyStart] ++ backupTraceSfx env,
        backupTableFinal env, ctableFinal env, backupResult env⟩ := by
  unfold runFromBackupM backupTraceSfx backupResult backupTableFinal ctableFinal
  by_cases h : env.cmdBackup = true
  · rcases hbe : backupRes env with ⟨bt, br⟩
    cases br <;> simp [h, hbe, runFromCopyChar]
  · simp [h, runFromCopyChar]

lemma checkSfxSub (env : RunEnv) :
    List.Sublist (checkTraceSfx env) [Ev.checkOp, Ev.notifySuccess] := by
  unfold checkTraceSfx
  by_cases h : env.cmdCheck = true
  · cases hr : checkRes env <;> simp [h, hr]
  · simp [h]

lemma pruneSfxSub (env : RunEnv) :
    List.Sublist (pruneTraceSfx env) [Ev.pruneOp, Ev.checkOp, Ev.notifySuccess] := by
  unfold pruneTraceSfx
  by_cases h : env.cmdPrune = true
  · cases hr : pruneRes env
    · simp [h, hr]
      exact checkSfxSub env
    · simp [h, hr]
  · simp [h]
    exact List.Sublist.cons _ (checkSfxSub env)

lemma copySfxSub (env : RunEnv) :
    List.Sublist (copyTraceSfx env)
      [Ev.copyOp, Ev.pruneOp, Ev.checkOp, Ev.notifySuccess] := by
  unfold copyTraceSfx
  by_cases h : env.cmdCopy = true
  · cases hr : (copyRes env).2
    · simp [h, hr]
      exact pruneSfxSub env
    · simp [h, hr]
  · simp [h]
    exact List.Sublist.cons _ (pruneSfxSub env)

lemma backupSfxSub (env : RunEnv) :
    List.Sublist (backupTraceSfx env)
      [Ev.backupOp, Ev.copyOp, Ev.pruneOp, Ev.checkOp, Ev.notifySuccess] := by
  unfold backupTraceSfx
  by_cases h : env.cmdBackup = true
  · cases hr : (backupRes env).2
    · simp [h, hr]
      exact copySfxSub env
    · simp [h, hr]
  · simp [h]
    exact List.Sublist.cons _ (copySfxSub env)

lemma checkSfxNoCheck (env : RunEnv) (h : env.cmdCheck = false) :
    Ev.checkOp ∉ checkTraceSfx env := by
  unfold checkTraceSfx
  simp [h]

lemma pruneSfxNoPrune (env : RunEnv) (h : env.cmdPrune = false) :
    Ev.pruneOp ∉ pruneTraceSfx env := by
  unfold pruneTraceSfx
  rw [h]
  intro hx
  have h2 := (checkSfxSub env).subset (by simpa using hx)
  exact absurd h2 (by decide)

lemma pruneSfxNoCheck (env : RunEnv) (h : env.cmdCheck = false) :
    Ev.checkOp ∉ pruneTraceSfx env := by
  unfold pruneTraceSfx
  by_cases hp : env.cmdPrune = true
  · cases hr : pruneRes env <;> simp [hp, hr, checkSfxNoCheck env h]
  · simp [hp, checkSfxNoCheck env h]

lemma copySfxNoCopy (env : RunEnv) (h : env.cmdCopy = false) :
    Ev.copyOp ∉ copyTraceSfx env := by
  unfold copyTraceSfx
  rw [h]
  intro hx
  have h2 := (pruneSfxSub env).subset (by simpa using hx)
  exact absurd h2 (by decide)

lemma copySfxNoPrune (env : RunEnv) (h : env.cmdPrune = false) :
    Ev.pruneOp ∉ copyTraceSfx env := by
  unfold copyTraceSfx
  by_cases hc : env.cmdCopy = true
  · cases hr : (copyRes env).2 <;> simp [hc, hr, pruneSfxNoPrune env h]
  · simp [hc, pruneSfxNoPrune env h]

lemma copySfxNoCheck (env : RunEnv) (h : env.cmdCheck = false) :
    Ev.checkOp ∉ copyTraceSfx env := by
  unfold copyTraceSfx
  by_cases hc : env.cmdCopy = true
  · cases hr : (copyRes env).2 <;> simp [hc, hr, pruneSfxNoCheck env h]
  · simp [hc, pruneSfxNoCheck env h]

lemma backupSfxNoBackup (env : RunEnv) (h : env.cmdBackup = false) :
    Ev.backupOp ∉ backupTraceSfx env := by
  unfold backupTraceSfx
  rw [h]
  intro hx
  have h2 := (copySfxSub env).subset (by simpa using hx)
  exact absurd h2 (by decide)

lemma backupSfxNoCopy (env : RunEnv) (h : env.cmdCopy = false) :
    Ev.copyOp ∉ backupTraceSfx env := by
  unfold backupTraceSfx
  by_cases hb : env.cmdBackup = true
  · cases hr : (backupRes env).2 <;> simp [hb, hr, copySfxNoCopy env h]
  · simp [hb, copySfxNoCopy env h]

lemma backupSfxNoPrune (env : RunEnv) (h : env.cmdPrune = false) :
    Ev.pruneOp ∉ backupTraceSfx env := by
  unfold backupTraceSfx
  by_cases hb : env.cmdBackup = true
  · cases hr : (backupRes env).2 <;> simp [hb, hr, copySfxNoPrune env h]
  · simp [hb, copySfxNoPrune env h]

lemma backupSfxNoCheck (env : RunEnv) (h : env.cmdCheck = false) :
    Ev.checkOp ∉ backupTraceSfx env := by
  unfold backupTraceSfx
  by_cases hb : env.cmdBackup = true
  · cases hr : (backupRes env).2 <;> simp [hb, hr, copySfxNoCheck env h]
  · simp [hb, copySfxNoCheck env h]

lemma notifyMemCheckSfx (env : RunEnv) :
    Ev.notifySuccess ∈ checkTraceSfx env
      ↔ (!env.cmdCheck || (checkRes env).isNone) = true := by
  unfold checkTraceSfx
  by_cases h : env.cmdCheck = true
  · cases hr : checkRes env <;> simp [h, hr]
  · simp [h]

lemma notifyMemPruneSfx (env : RunEnv) :
    Ev.notifySuccess ∈ pruneTraceSfx env
      ↔ ((!env.cmdPrune || (pruneRes env).isNone)
          && (!env.cmdCheck || (checkRes env).isNone)) = true := by
  unfold pruneTraceSfx
  by_cases h : env.cmdPrune = true
  · cases hr : pruneRes env <;> simp [h, hr, notifyMemCheckSfx]
  · simp [h, notifyMemCheckSfx]

lemma notifyMemCopySfx (env : RunEnv) :
    Ev.notifySuccess ∈ copyTraceSfx env
      ↔ ((!env.cmdCopy || (copyRes env).2.isNone)
          && ((!env.cmdPrune || (pruneRes env).isNone)
              && (!env.cmdCheck || (checkRes env).isNone))) = true := by
  unfold copyTraceSfx
  by_cases h : env.cmdCopy = true
  · cases hr : (copyRes env).2 <;> simp [h, hr, notifyMemPruneSfx]
  · simp [h, notifyMemPruneSfx]

lemma notifyMemBackupSfx (env : RunEnv) :
    Ev.notifySuccess ∈ backupTraceSfx env
      ↔ ((!env.cmdBackup || (backupRes env).2.isNone)
          && ((!env.cmdCopy || (copyRes env).2.isNone)
              && ((!env.cmdPrune || (pruneRes env).isNone)
                  && (!env.cmdCheck || (checkRes env).isNone)))) = true := by
  unfold backupTraceSfx
  by_cases h : env.cmdBackup = true
  · cases hr : (backupRes env).2 <;> simp [h, hr, notifyMemCopySfx]
  · simp [h, notifyMemCopySfx]

lemma checkResultEq (env : RunEnv) :
    checkResult env
      = ((if env.cmdCheck then checkRes env else none) <|> env.notifySuccessErr) := by
  unfold checkResult
  by_cases h : env.cmdCheck = true
  · cases hr : checkRes env <;> simp [h, hr]
  · simp [h]

lemma pruneResultEq (env : RunEnv) :
    pruneResult env
      = ((if env.cmdPrune then pruneRes env else none)
          <|> ((if env.cmdCheck then checkRes env else none)
            <|> env.notifySuccessErr)) := by
  unfold pruneResult
  by_cases h : env.cmdPrune = true
  · cases hr : pruneRes env <;> simp [h, hr, checkResultEq]
  · simp [h, checkResultEq]

lemma copyResultEq (env : RunEnv) :
    copyResult env
      = ((if env.cmdCopy then (copyRes env).2 else none)
          <|> ((if env.cmdPrune then pruneRes env else none)
            <|> ((if env.cmdCheck then checkRes env else none)
              <|> env.notifySuccessErr))) := by
  unfold copyResult
  by_cases h : env.cmdCopy = true
  · cases hr : (copyRes env).2 <;> simp [h, hr, pruneResultEq]
  · simp [h, pruneResultEq]

lemma backupResultEq (env : RunEnv) :
    backupResult env
      = ((if env.cmdBackup then (backupRes env).2 else none)
          <|> ((if env.cmdCopy then (copyRes env).2 else none)
            <|> ((if env.cmdPrune then pruneRes env else none)
              <|> ((if env.cmdCheck then checkRes env else none)
                <|> env.notifySuccessErr)))) := by
  unfold backupResult
  by_cases h : env.cmdBackup = true
  · cases hr : (backupRes env).2 <;> simp [h, hr, copyResultEq]
  · simp [h, copyResultEq]

lemma checkSfxFail (env : RunEnv) (hk : env.cmdCheck = true)
    (hr : (checkRes env).isSome = true) : checkTraceSfx env = [Ev.checkOp] := by
  unfold checkTraceSfx
  rcases Option.isSome_iff_exists.mp hr with ⟨e, he⟩
  simp [hk, he]

lemma pruneSfxFail (env : RunEnv) (hp : env.cmdPrune = true)
    (hr : (pruneRes env).isSome = true) : pruneTraceSfx env = [Ev.pruneOp] := by
  unfold pruneTraceSfx
  rcases Option.isSome_iff_exists.mp hr with ⟨e, he⟩
  simp [hp, he]

lemma copySfxFail (env : RunEnv) (hc : env.cmdCopy = true)
    (hr : (copyRes env).2.isSome = true) : copyTraceSfx env = [Ev.copyOp] := by
  unfold copyTraceSfx
  rcases Option.isSome_iff_exists.mp hr with ⟨e, he⟩
  simp [hc, he]

lemma backupSfxFail (env : RunEnv) (hb : env.cmdBackup = true)
    (hr : (backupRes env).2.isSome = true) : backupTraceSfx env = [Ev.backupOp] := by
  unfold backupTraceSfx
  rcases Option.isSome_iff_exists.mp hr with ⟨e, he⟩
  simp [hb, he]

lemma checkFailNoNotifyPrune (env : RunEnv) (hk : env.cmdCheck = true)
    (hr : (checkRes env).isSome = true) :
    Ev.notifySuccess ∉ pruneTraceSfx env := by
  unfold pruneTraceSfx
  by_cases hp : env.cmdPrune = true
  · cases hpr : pruneRes env <;> simp [hp, hpr, checkSfxFail env hk hr]
  · simp [hp, checkSfxFail env hk hr]

lemma checkFailNoNotifyCopy (env : RunEnv) (hk : env.cmdCheck = true)
    (hr : (checkRes env).isSome = true) :
    Ev.notifySuccess ∉ copyTraceSfx env := by
  unfold copyTraceSfx
  by_cases hc : env.cmdCopy = true
  · cases hcr2 : (copyRes env).2 <;> simp [hc, hcr2, checkFailNoNotifyPrune env hk hr]
  · simp [hc, checkFailNoNotifyPrune env hk hr]

lemma checkFailNoNotifyBackup (env : RunEnv) (hk : env.cmdCheck = true)
    (hr : (checkRes env).isSome = true) :
    Ev.notifySuccess ∉ backupTraceSfx env := by
  unfold backupTraceSfx
  by_cases hb : env.cmdBackup = true
  · cases hbr : (backupRes env).2 <;> simp [hb, hbr, checkFailNoNotifyCopy env hk hr]
  · simp [hb, checkFailNoNotifyCopy env hk hr]

lemma pruneFailCopy (env : RunEnv) (hp : env.cmdPrune = true)
    (hr : (pruneRes env).isSome = true) :
    Ev.checkOp ∉ copyTraceSfx env ∧ Ev.notifySuccess ∉ copyTraceSfx env := by
  unfold copyTraceSfx
  by_cases hc : env.cmdCopy = true
  · cases hcr2 : (copyRes env).2 <;> simp [hc, hcr2, pruneSfxFail env hp hr]
  · simp [hc, pruneSfxFail env hp hr]

lemma pruneFailBackup (env : RunEnv) (hp : env.cmdPrune = true)
    (hr : (pruneRes env).isSome = true) :
    Ev.checkOp ∉ backupTraceSfx env ∧ Ev.notifySuccess ∉ backupTraceSfx env := by
  unfold backupTraceSfx
  by_cases hb : env.cmdBackup = true
  · cases hbr : (backupRes env).2 <;>
      simp [hb, hbr, (pruneFailCopy env hp hr).1, (pruneFailCopy env hp hr).2]
  · simp [hb, (pruneFailCopy env hp hr).1, (pruneFailCopy env hp hr).2]

lemma copyFailBackup (env : RunEnv) (hc : env.cmdCopy = true)
    (hr : (copyRes env).2.isSome = true) :
    Ev.pruneOp ∉ backupTraceSfx env ∧ Ev.checkOp ∉ backupTraceSfx env ∧
      Ev.notifySuccess ∉ backupTraceSfx env := by
  unfold backupTraceSfx
  by_cases hb : env.cmdBackup = true
  · cases hbr : (backupRes env).2 <;> simp [hb, hbr, copySfxFail env hc hr]
  · simp [hb, copySfxFail env hc hr]

/-- C6: the run orchestrator performs its steps in the fixed order — log
rotation, log-file creation, start notification, backup, copy, prune,
check, success notification — skipping exactly the operations whose mode
flags are off; on the first error from any step no further step runs (a
rotation failure leaves the bare one-step trace, and a failing requested
operation excludes every later operation and the success notification from
the trace); the success notification is sent precisely when every requested
step succeeded, and the returned error is the first error along that order
(log-file creation, an external collaborator, is assumed to succeed). -/
theorem C6_orchestrator_order (env : RunEnv) (hcr : env.createErr = none) :
    List.Sublist (performBackupM env).trace opOrder ∧
      (env.cmdBackup = false → Ev.backupOp ∉ (performBackupM env).trace) ∧
      (env.cmdCopy = false → Ev.copyOp ∉ (performBackupM env).trace) ∧
      (env.cmdPrune = false → Ev.pruneOp ∉ (performBackupM env).trace) ∧
      (env.cmdCheck = false → Ev.checkOp ∉ (performBackupM env).trace) ∧
      (Ev.notifySuccess ∈ (performBackupM env).trace ↔ allRequestedOk env = true) ∧
      (performBackupM env).result = firstErrM env ∧
      (env.rotateErr.isSome = true → (performBackupM env).trace = [Ev.rotate]) ∧
      (env.cmdBackup = true → (backupRes env).2.isSome = true →
        Ev.copyOp ∉ (performBackupM env).trace ∧
          Ev.pruneOp ∉ (performBackupM env).trace ∧
          Ev.checkOp ∉ (performBackupM env).trace ∧
          Ev.notifySuccess ∉ (performBackupM env).trace) ∧
      (env.cmdCopy = true → (copyRes env).2.isSome = true →
        Ev.pruneOp ∉ (performBackupM env).trace ∧
          Ev.checkOp ∉ (performBackupM env).trace ∧
          Ev.notifySuccess ∉ (performBackupM env).trace) ∧
      (env.cmdPrune = true → (pruneRes env).isSome = true →
        Ev.checkOp ∉ (performBackupM env).trace ∧
          Ev.notifySuccess ∉ (performBackupM env).trace) ∧
      (env.cmdCheck = true → (checkRes env).isSome = true →
        Ev.notifySuccess ∉ (performBackupM env).trace) := by
  cases hrot : env.rotateErr with
  | some e =>
    have hpb : performBackupM env = ⟨[Ev.rotate], [], [], some e⟩ := by
      simp [performBackupM, hrot]
    rw [hpb]
    refine ⟨?_, fun _ => ?_, fun _ => ?_, fun _ => ?_, fun _ => ?_, ?_, ?_,
      fun _ => rfl, fun _ _ => ?_, fun _ _ => ?_, fun _ _ => ?_, fun _ _ => ?_⟩
    · show List.Sublist [Ev.rotate] opOrder
      decide
    · show Ev.backupOp ∉ [Ev.rotate]
      decide
    · show Ev.copyOp ∉ [Ev.rotate]
      decide
    · show Ev.pruneOp ∉ [Ev.rotate]
      decide
    · show Ev.checkOp ∉ [Ev.rotate]
      decide
    · simp [allRequestedOk, hrot]
    · simp [firstErrM, hrot]
    · exact ⟨by show Ev.copyOp ∉ [Ev.rotate]; decide,
        by show Ev.pruneOp ∉ [Ev.rotate]; decide,
        by show Ev.checkOp ∉ [Ev.rotate]; decide,
        by show Ev.notifySuccess ∉ [Ev.rotate]; decide⟩
    · exact ⟨by show Ev.pruneOp ∉ [Ev.rotate]; decide,
        by show Ev.checkOp ∉ [Ev.rotate]; decide,
        by show Ev.notifySuccess ∉ [Ev.rotate]; decide⟩
    · exact ⟨by show Ev.checkOp ∉ [Ev.rotate]; decide,
        by show Ev.notifySuccess ∉ [Ev.rotate]; decide⟩
    · show Ev.notifySuccess ∉ [Ev.rotate]
      decide
  | none =>
    have hpb : performBackupM env = runFromBackupM env := by
      simp [performBackupM, hrot, hcr]
    rw [hpb, runFromBackupChar]
    refine ⟨?_, ?_, ?_, ?_, ?_, ?_, ?_, ?_, ?_, ?_, ?_, ?_⟩
    · exact List.Sublist.append_left (backupSfxSub env) _
    · intro h hx
      rcases List.mem_append.1 hx with h1 | h2
      · exact absurd h1 (by decide)
      · exact backupSfxNoBackup env h h2
    · intro h hx
      rcases List.mem_append.1 hx with h1 | h2
      · exact absurd h1 (by decide)
      · exact backupSfxNoCopy env h h2
    · intro h hx
      rcases List.mem_append.1 hx with h1 | h2
      · exact absurd h1 (by decide)
      · exact backupSfxNoPrune env h h2
    · intro h hx
      rcases List.mem_append.1 hx with h1 | h2
      · exact absurd h1 (by decide)
      · exact backupSfxNoCheck env h h2
    · have h1 : Ev.notifySuccess ∉ [Ev.rotate, Ev.createLog, Ev.notifyStart] := by
        decide
      simp only [List.mem_append]
      simp [h1, notifyMemBackupSfx, allRequestedOk, hrot, Bool.and_assoc]
    · rw [show (RunOut.mk
          ([Ev.rotate, Ev.createLog, Ev.notifyStart] ++ backupTraceSfx env)
          (backupTableFinal env) (ctableFinal env) (backupResult env)).result
          = backupResult env from rfl, backupResultEq]
      simp [firstErrM, hrot, hcr]
    · intro h
      simp at h
    · intro hb hbs
      have hfx := backupSfxFail env hb hbs
      show Ev.copyOp ∉ [Ev.rotate, Ev.createLog, Ev.notifyStart] ++ backupTraceSfx env
          ∧ Ev.pruneOp ∉ [Ev.rotate, Ev.createLog, Ev.notifyStart] ++ backupTraceSfx env
          ∧ Ev.checkOp ∉ [Ev.rotate, Ev.createLog, Ev.notifyStart] ++ backupTraceSfx env
          ∧ Ev.notifySuccess ∉ [Ev.rotate, Ev.createLog, Ev.notifyStart] ++ backupTraceSfx env
      rw [hfx]
      exact ⟨by decide, by decide, by decide, by decide⟩
    · intro hc hcs
      have h3 := copyFailBackup env hc hcs
      refine ⟨?_, ?_, ?_⟩ <;> intro hx <;> rcases List.mem_append.1 hx with h1 | h2
      · exact absurd h1 (by decide)
      · exact h3.1 h2
      · exact absurd h1 (by decide)
      · exact h3.2.1 h2
      · exact absurd h1 (by decide)
      · exact h3.2.2 h2
    · intro hp hps
      have h3 := pruneFailBackup env hp hps
      refine ⟨?_, ?_⟩ <;> intro hx <;> rcases List.mem_append.1 hx with h1 | h2
      · exact absurd h1 (by decide)
      · exact h3.1 h2
      · exact absurd h1 (by decide)
      · exact h3.2 h2
    · intro hk hks hx
      rcases List.mem_append.1 hx with h1 | h2
      · exact absurd h1 (by decide)
      · exact checkFailNoNotifyBackup env hk hks h2

/-- A concrete run environment requesting backup and prune only, with all
collaborators succeeding. -/
def envC6 : RunEnv where
  rotateErr := none
  createErr := none
  cmdBackup := true
  cmdCopy := false
  cmdPrune := true
  cmdCheck := false
  backupCfg := [⟨"one".data, "1".data, false, [], []⟩]
  backupExec := fun _ => ExecOutcome.ok []
  backupDur := fun _ => "1s".data
  copyCfg := []
  copyExec := fun _ => ExecOutcome.ok []
  copyDur := fun _ => "1s".data
  pruneCfg := [⟨"one".data, expandKeep ("7".data), "1".data, true, []⟩]
  pruneExec := fun _ => none
  checkCfg := []
  checkExec := fun _ => none
  notifySuccessErr := none

/-- Witness for C6 in the environment `envC6`. -/
theorem C6_witness :
    List.Sublist (performBackupM envC6).trace opOrder ∧
      (envC6.cmdBackup = false → Ev.backupOp ∉ (performBackupM envC6).trace) ∧
      (envC6.cmdCopy = false → Ev.copyOp ∉ (performBackupM envC6).trace) ∧
      (envC6.cmdPrune = false → Ev.pruneOp ∉ (performBackupM envC6).trace) ∧
      (envC6.cmdCheck = false → Ev.checkOp ∉ (performBackupM envC6).trace) ∧
      (Ev.notifySuccess ∈ (performBackupM envC6).trace
        ↔ allRequestedOk envC6 = true) ∧
      (performBackupM envC6).result = firstErrM envC6 ∧
      (envC6.rotateErr.isSome = true → (performBackupM envC6).trace = [Ev.rotate]) ∧
      (envC6.cmdBackup = true → (backupRes envC6).2.isSome = true →
        Ev.copyOp ∉ (performBackupM envC6).trace ∧
          Ev.pruneOp ∉ (performBackupM envC6).trace ∧
          Ev.checkOp ∉ (performBackupM envC6).trace ∧
          Ev.notifySuccess ∉ (performBackupM envC6).trace) ∧
      (envC6.cmdCopy = true → (copyRes envC6).2.isSome = true →
        Ev.pruneOp ∉ (performBackupM envC6).trace ∧
          Ev.checkOp ∉ (performBackupM envC6).trace ∧
          Ev.notifySuccess ∉ (performBackupM envC6).trace) ∧
      (envC6.cmdPrune = true → (pruneRes envC6).isSome = true →
        Ev.checkOp ∉ (performBackupM envC6).trace ∧
          Ev.notifySuccess ∉ (performBackupM envC6).trace) ∧
      (envC6.cmdCheck = true → (checkRes envC6).isSome = true →
        Ev.notifySuccess ∉ (performBackupM envC6).trace) :=
  C6_orchestrator_order envC6 rfl
